import Mathlib

/-!
# Daktela v6 connector: request-parameter compiler and response/error normalisation

A shallow embedding of `src/index.js`.  JavaScript objects and arrays are
mutable and shared by reference, and `buildRequestParams` writes into objects
it received from its caller, so values live in an explicit heap: a `Val` is a
primitive or an address, and every operation that allocates or assigns takes
a heap and returns the heap after it.

Modelling conventions
* objects are plain records of own, writable data properties (no accessors,
  no frozen objects, nothing inherited except from `Object.prototype`);
* numbers are integers (status codes, `take`, `skip`); `NaN` and `-0` do not
  occur;
* a property read is modelled for the names the connector reads (`params`,
  `fields`, `result`, `data`, `total`, `error`, ...): none of them is an
  array index, `length`, or a member of a built-in prototype of the receivers
  they are read from.
-/

namespace Daktela

/-! ## Values and the heap -/

/-- A JavaScript value: a primitive, or the address of an object or array. -/
inductive Val where
  | undefined
  | null
  | bool (b : Bool)
  | num (n : Int)
  | str (s : String)
  | ref (a : Nat)
  deriving DecidableEq, Repr

/-- A heap cell: an object (own properties in insertion order) or an array. -/
inductive Cell where
  | obj (props : List (String × Val))
  | arr (elems : List Val)
  deriving DecidableEq, Repr

/-- The heap: the cell at address `a` is the `a`-th element. -/
abbrev Heap := List Cell

/-- Allocation of a fresh cell, as done by an object or array literal. -/
def alloc (h : Heap) (c : Cell) : Heap × Val :=
  (h ++ [c], Val.ref h.length)

/-- Own-property lookup in a property list; `undefined` when the key is absent. -/
def lookup (ps : List (String × Val)) (k : String) : Val :=
  (List.lookup k ps).getD Val.undefined

/-- Whether a property list has the key `k`. -/
def hasKey (ps : List (String × Val)) (k : String) : Bool :=
  (List.lookup k ps).isSome

/-- Assignment `o[k] = v` on a property list: replaces the value of an existing
key in place, appends a new entry otherwise. -/
def setKey : List (String × Val) → String → Val → List (String × Val)
  | [], k, v => [(k, v)]
  | (k', v') :: ps, k, v => if k' = k then (k', v) :: ps else (k', v') :: setKey ps k v

/-- The test `Array.isArray(v)`. -/
def isArray (h : Heap) : Val → Bool
  | Val.ref a => match h[a]? with
    | some (Cell.arr _) => true
    | _ => false
  | _ => false

/-- The helper `isObject(item)`, index.js 166-168:
`typeof item === 'object' && !Array.isArray(item) && item !== null`. -/
def isObject (h : Heap) : Val → Bool
  | Val.ref a => match h[a]? with
    | some (Cell.obj _) => true
    | _ => false
  | _ => false

/-- Property read `v.k` on a receiver that is neither `null` nor `undefined`:
the own property of an object, `undefined` on arrays and primitives. -/
def prop (h : Heap) (v : Val) (k : String) : Val :=
  match v with
  | Val.ref a => match h[a]? with
    | some (Cell.obj ps) => lookup ps k
    | _ => Val.undefined
  | _ => Val.undefined

/-- Whether `v` is an object that has the own property `k`. -/
def hasProp (h : Heap) (v : Val) (k : String) : Bool :=
  match v with
  | Val.ref a => match h[a]? with
    | some (Cell.obj ps) => hasKey ps k
    | _ => false
  | _ => false

/-- Assignment `o.k = v` where `o` is an object; the heap is unchanged when `o`
is not the address of an object. -/
def setProp (h : Heap) (o : Val) (k : String) (v : Val) : Heap :=
  match o with
  | Val.ref a => match h[a]? with
    | some (Cell.obj ps) => h.set a (Cell.obj (setKey ps k v))
    | _ => h
  | _ => h

/-- Call `xs.push(v)` where `xs` is an array: `v` becomes the last element of
that same array. -/
def push (h : Heap) (xs : Val) (v : Val) : Heap :=
  match xs with
  | Val.ref a => match h[a]? with
    | some (Cell.arr es) => h.set a (Cell.arr (es ++ [v]))
    | _ => h
  | _ => h

/-- The test `v === null || v === undefined`. -/
def Val.isNullish : Val → Bool
  | Val.undefined => true
  | Val.null => true
  | _ => false

/-- The operator `a ?? b`. -/
def nullish (a b : Val) : Val :=
  if a.isNullish then b else a

/-- JavaScript truthiness (`ToBoolean`). -/
def truthy : Val → Bool
  | Val.undefined => false
  | Val.null => false
  | Val.bool b => b
  | Val.num n => n != 0
  | Val.str s => s != ""
  | Val.ref _ => true

/-! ## Errors and transport values -/

/-- The response object handed over by the HTTP client: `status` and the parsed
body `data` (`undefined` when there is no body). -/
structure AxiosResponse where
  status : Int
  data : Val
  deriving DecidableEq, Repr

/-- A thrown `Error` object: its `name`, its `message`, and the `response` the
HTTP client attaches to a failure that got one. -/
structure JsError where
  name : String
  message : String
  response : Option AxiosResponse
  deriving DecidableEq, Repr

/-- The `TypeError` raised by a property read on `null` or `undefined`. -/
def typeError (k : String) : JsError :=
  { name := "TypeError", message := "Cannot read properties of null or undefined: " ++ k,
    response := none }

/-- Property read `v.k` on an arbitrary receiver: throws on `null` and
`undefined`. -/
def getProp (h : Heap) (v : Val) (k : String) : Except JsError Val :=
  if v.isNullish then Except.error (typeError k) else Except.ok (prop h v k)

/-! ## Constants, index.js 6-31 -/

/-- Default number of rows to be returned. -/
def PaginationTake : Int := 100

/-- Default number of rows to be skipped. -/
def PaginationSkip : Int := 0

/-- Logical AND of a filter. -/
def FilterLogicAnd : String := "and"

/-- Logical OR of a filter. -/
def FilterLogicOr : String := "or"

/-! ## DaktelaResponse, index.js 84-100 -/

/-- An instance of `DaktelaResponse`.  `total = none` means the constructor
never assigned `this.total`; reading it then gives `undefined`. -/
structure DaktelaResponse where
  status : Val
  data : Val
  total : Option Val
  deriving DecidableEq, Repr

/-- Reading `r.total`. -/
def DaktelaResponse.readTotal (r : DaktelaResponse) : Val :=
  r.total.getD Val.undefined

/-- The constructor `new DaktelaResponse(response)`, index.js 88-99. -/
def DaktelaResponse.new (h : Heap) (response : AxiosResponse) :
    Except JsError DaktelaResponse := do
  let body := response.data
  let status := Val.num response.status
  let result := nullish (← getProp h body "result") Val.null
  let data ←
    if result ≠ Val.null then do
      let d ← getProp h result "data"
      pure (if isArray h d then d else result)
    else pure result
  let total ←
    if result ≠ Val.null then do
      let t ← getProp h result "total"
      pure (if t ≠ Val.null then some t else none)
    else pure none
  pure { status := status, data := data, total := total }

/-! ## DaktelaError, index.js 108-125 -/

/-- An instance of `DaktelaError`. -/
structure DaktelaError where
  name : String
  message : String
  prevError : JsError
  status : Val
  apiError : Val
  deriving DecidableEq, Repr

/-- The constructor `new DaktelaError(prevError)`, index.js 112-124. -/
def DaktelaError.new (h : Heap) (prevError : JsError) : Except JsError DaktelaError :=
  match prevError.response with
  | some response => do
    let e ← getProp h response.data "error"
    pure { name := "DaktelaError", message := prevError.message, prevError := prevError,
           status := Val.num response.status,
           apiError := if truthy e then e else Val.null }
  | none =>
    pure { name := "DaktelaError", message := prevError.message, prevError := prevError,
           status := Val.null, apiError := Val.null }

/-! ## DaktelaConnector, index.js 137-158 -/

/-- The state of a connector that the request methods read: the base URL handed
to the HTTP client, the authentication mode and the access token.  `cookieAuth`
is typed as documented (`@param {boolean} options.cookieAuth`). -/
structure DaktelaConnector where
  baseURL : String
  cookieAuth : Bool
  accessToken : Val
  deriving DecidableEq, Repr

/-- The constructor `new DaktelaConnector(url, accessToken = null, options = {})`,
index.js 137-158; `cookieAuth` is `options.cookieAuth`, `none` when not given. -/
def DaktelaConnector.new (url : String) (accessToken : Val) (cookieAuth : Option Bool) :
    DaktelaConnector :=
  let accessToken := if accessToken = Val.undefined then Val.null else accessToken
  let url := if "https://".data.isPrefixOf url.data then url else "https://" ++ url
  let url := if "/".data.isSuffixOf url.data then url else url ++ "/"
  { baseURL := url ++ "api/v6/", cookieAuth := cookieAuth.getD true, accessToken := accessToken }

/-! ## buildRequestParams, index.js 176-214 -/

/-- Lines 183-185: `if (Array.isArray(options.fields)) params.fields = options.fields`. -/
def shapeFields (h : Heap) (options params : Val) : Heap :=
  if isArray h (prop h options "fields") then
    setProp h params "fields" (prop h options "fields")
  else h

/-- Lines 186-188: `if (Array.isArray(options.sort)) params.sort = options.sort`. -/
def shapeSort (h : Heap) (options params : Val) : Heap :=
  if isArray h (prop h options "sort") then
    setProp h params "sort" (prop h options "sort")
  else h

/-- Lines 189-192: `take` and `skip` from an object-shaped `options.pagination`. -/
def shapePagination (h : Heap) (options params : Val) : Heap :=
  if isObject h (prop h options "pagination") then
    let h1 := setProp h params "take"
      (nullish (prop h (prop h options "pagination") "take") (Val.num PaginationTake))
    setProp h1 params "skip"
      (nullish (prop h1 (prop h1 options "pagination") "skip") (Val.num PaginationSkip))
  else h

/-- Lines 193-198: `params.filter = { logic: FilterLogicAnd, filters: options.filters }`
when `options.filters` is an array.  The new object stores the caller's array
itself, not a copy. -/
def shapeFilters (h : Heap) (options params : Val) : Heap :=
  if isArray h (prop h options "filters") then
    let (h1, f) := alloc h
      (Cell.obj [("logic", Val.str FilterLogicAnd), ("filters", prop h options "filters")])
    setProp h1 params "filter" f
  else h

/-- Lines 199-205: an object-shaped `options.filter` is pushed onto the group
built from `options.filters` when there is one, and becomes `params.filter`
itself otherwise. -/
def shapeFilter (h : Heap) (options params : Val) : Heap :=
  if isObject h (prop h options "filter") then
    if isObject h (prop h params "filter") then
      push h (prop h (prop h params "filter") "filters") (prop h options "filter")
    else
      setProp h params "filter" (prop h options "filter")
  else h

/-- Lines 182-205, the branch without a `params` override: a fresh object
shaped from `fields`, `sort`, `pagination`, `filters` and `filter`. -/
def shapeParams (h : Heap) (options : Val) : Heap × Val :=
  let (h1, params) := alloc h (Cell.obj [])
  let h2 := shapeFields h1 options params
  let h3 := shapeSort h2 options params
  let h4 := shapePagination h3 options params
  let h5 := shapeFilters h4 options params
  let h6 := shapeFilter h5 options params
  (h6, params)

/-- Lines 177-207: the object the local variable `params` refers to when the
token is about to be added. -/
def chooseParams (h : Heap) (options : Val) : Heap × Val :=
  let (h0, params) := alloc h (Cell.obj [])
  if isObject h0 options then
    if isObject h0 (prop h0 options "params") then
      (h0, prop h0 options "params")
    else
      shapeParams h0 options
  else (h0, params)

/-- Lines 208-210: `if (!this.cookieAuth && this.accessToken !== null)
params.accessToken = this.accessToken`. -/
def addAccessToken (c : DaktelaConnector) (h : Heap) (params : Val) : Heap :=
  if !c.cookieAuth && c.accessToken ≠ Val.null then
    setProp h params "accessToken" c.accessToken
  else h

/-- The method `DaktelaConnector.prototype.buildRequestParams(options)`, index.js 176-214:
the heap after the call and the returned object `{ params: params }`. -/
def buildRequestParams (c : DaktelaConnector) (h : Heap) (options : Val) : Heap × Val :=
  let (h1, params) := chooseParams h options
  let h2 := addAccessToken c h1 params
  alloc h2 (Cell.obj [("params", params)])

/-- The method `DaktelaConnector.prototype.enrichWithAccessToken(params)`, index.js
221-225: `buildRequestParams` on the new object `{ params: params }`. -/
def enrichWithAccessToken (c : DaktelaConnector) (h : Heap) (params : Val) : Heap × Val :=
  let (h1, options) := alloc h (Cell.obj [("params", params)])
  buildRequestParams c h1 options

/-! ## The request methods, index.js 241-301 -/

/-- What the HTTP client call settles to: a response, or a thrown failure. -/
inductive Outcome where
  | resolve (response : AxiosResponse)
  | reject (error : JsError)
  deriving DecidableEq, Repr

/-- One call of the HTTP client. -/
structure Request where
  method : String
  endpoint : String
  payload : Val
  config : Val
  deriving DecidableEq, Repr

/-- The HTTP client, an external collaborator: from the heap and the request it
gives the heap after the round trip (where a response body lives) and the
outcome. -/
abbrev Transport := Heap → Request → Heap × Outcome

/-- What a request method throws: a `DaktelaError`, or some other error. -/
inductive Thrown where
  | daktelaError (e : DaktelaError)
  | other (e : JsError)
  deriving DecidableEq, Repr

/-- The body shared by the four methods once the client call has settled:
`try { ...; return new DaktelaResponse(response) } catch (error) { throw new
DaktelaError(error) }`.  A throw of either constructor is not caught again. -/
def settle (h : Heap) (o : Outcome) : Except Thrown DaktelaResponse :=
  let tried : Except JsError DaktelaResponse :=
    match o with
    | Outcome.resolve response => DaktelaResponse.new h response
    | Outcome.reject error => Except.error error
  match tried with
  | Except.ok r => Except.ok r
  | Except.error error =>
    match DaktelaError.new h error with
    | Except.ok e => Except.error (Thrown.daktelaError e)
    | Except.error t => Except.error (Thrown.other t)

/-- A parameter with default `null`: `undefined` is replaced by `null`. -/
def defaultNull (v : Val) : Val :=
  if v = Val.undefined then Val.null else v

/-- The method `get(endpoint, options = null)`, index.js 241-248. -/
def DaktelaConnector.get (c : DaktelaConnector) (api : Transport) (h : Heap)
    (endpoint : String) (options : Val) : Heap × Except Thrown DaktelaResponse :=
  let (h1, config) := buildRequestParams c h (defaultNull options)
  let (h2, o) := api h1 { method := "get", endpoint := endpoint,
                          payload := Val.undefined, config := config }
  (h2, settle h2 o)

/-- The method `post(endpoint, payload, params = null)`, index.js 259-266. -/
def DaktelaConnector.post (c : DaktelaConnector) (api : Transport) (h : Heap)
    (endpoint : String) (payload params : Val) : Heap × Except Thrown DaktelaResponse :=
  let (h1, config) := enrichWithAccessToken c h (defaultNull params)
  let (h2, o) := api h1 { method := "post", endpoint := endpoint,
                          payload := payload, config := config }
  (h2, settle h2 o)

/-- The method `put(endpoint, payload, params = null)`, index.js 277-284. -/
def DaktelaConnector.put (c : DaktelaConnector) (api : Transport) (h : Heap)
    (endpoint : String) (payload params : Val) : Heap × Except Thrown DaktelaResponse :=
  let (h1, config) := enrichWithAccessToken c h (defaultNull params)
  let (h2, o) := api h1 { method := "put", endpoint := endpoint,
                          payload := payload, config := config }
  (h2, settle h2 o)

/-- The method `delete(endpoint, params = null)`, index.js 294-301. -/
def DaktelaConnector.delete (c : DaktelaConnector) (api : Transport) (h : Heap)
    (endpoint : String) (params : Val) : Heap × Except Thrown DaktelaResponse :=
  let (h1, config) := enrichWithAccessToken c h (defaultNull params)
  let (h2, o) := api h1 { method := "delete", endpoint := endpoint,
                          payload := Val.undefined, config := config }
  (h2, settle h2 o)

/-! ## Well-formed heaps and the footprint of a step -/

/-- The value `v` is a primitive or an allocated address of `h`. -/
def Val.inHeap (h : Heap) : Val → Bool
  | Val.ref a => decide (a < h.length)
  | _ => true

/-- The values stored in a cell. -/
def Cell.vals : Cell → List Val
  | Cell.obj ps => ps.map Prod.snd
  | Cell.arr es => es

/-- A heap is closed when every address stored in one of its cells is allocated:
the heaps a JavaScript program can build. -/
def closed (h : Heap) : Bool :=
  h.all fun c => c.vals.all (Val.inHeap h)

/-- From `h` to `h'` the object at `p` stays an object and keeps, for every key
outside `K`, its presence and its value. -/
def KeepsKeys (K : List String) (p : Nat) (h h' : Heap) : Prop :=
  ∀ ps, h[p]? = some (Cell.obj ps) →
    ∃ ps', h'[p]? = some (Cell.obj ps') ∧
      ∀ k, k ∉ K → lookup ps' k = lookup ps k ∧ hasKey ps' k = hasKey ps k

/-- The keys set by lines 183-192, before the filters are looked at. -/
def basicKeys : List String := ["fields", "sort", "take", "skip"]

/-- The keys `buildRequestParams` derives from the request options. -/
def shapedKeys : List String := ["fields", "sort", "take", "skip", "filter"]

/-! ## Concrete heaps used as examples -/

/-- The first call of the test "Build params test" (test.js 47-58): a `params`
override `{xxx: 'yyy'}` next to `fields`, `sort` and `pagination`.
Address 0 is `options`, 1 the override, 2 `fields`, 3 `sort`, 4-5 the sorts,
6 the pagination. -/
def overrideHeap : Heap :=
  [ Cell.obj [("params", Val.ref 1), ("fields", Val.ref 2), ("sort", Val.ref 3),
              ("pagination", Val.ref 6)],
    Cell.obj [("xxx", Val.str "yyy")],
    Cell.arr [Val.str "a", Val.str "b"],
    Cell.arr [Val.ref 4, Val.ref 5],
    Cell.obj [("field", Val.str "edited"), ("dir", Val.str "desc")],
    Cell.obj [("field", Val.str "title"), ("dir", Val.str "asc")],
    Cell.obj [("take", Val.num 50), ("skip", Val.num 0)] ]

/-- The last `options` of "Build params test" (test.js 74-111): two simple
filters and a custom "or" filter.  Address 0 is `options`, 1 the `filters`
array, 2-3 the simple filters, 4 the custom filter, 5 its array, 6 its
simple filter. -/
def filtersHeap : Heap :=
  [ Cell.obj [("filters", Val.ref 1), ("filter", Val.ref 4)],
    Cell.arr [Val.ref 2, Val.ref 3],
    Cell.obj [("field", Val.str "firstname"), ("operator", Val.str "eq"),
              ("value", Val.str "John")],
    Cell.obj [("field", Val.str "lastname"), ("operator", Val.str "neq"),
              ("value", Val.str "Doe")],
    Cell.obj [("logic", Val.str FilterLogicOr), ("filters", Val.ref 5)],
    Cell.arr [Val.ref 6],
    Cell.obj [("field", Val.str "edited"), ("operator", Val.str "lte"),
              ("value", Val.str "2023-12-31")] ]

/-- A connector with query-token authentication. -/
def tokenConnector : DaktelaConnector :=
  DaktelaConnector.new "my.daktela.com" (Val.str "T0") (some false)

/-- A connector with cookie authentication (the default). -/
def cookieConnector : DaktelaConnector :=
  DaktelaConnector.new "my.daktela.com" (Val.str "T0") none

/-- A single-entity body whose entity has a `total` field of its own:
`{result: {a: 1, total: 5}}`.  Address 0 is the body, 1 the entity. -/
def entityWithTotalHeap : Heap :=
  [ Cell.obj [("result", Val.ref 1)],
    Cell.obj [("a", Val.num 1), ("total", Val.num 5)] ]

/-- A list body `{result: {data: [{name: 'x'}], total: 3}}` (address 0 the body,
1 the result, 2 the array, 3 its row), the body `{result: null}` (4), and an
error body `{error: {code: 'X'}}` (5, 6). -/
def bodiesHeap : Heap :=
  [ Cell.obj [("result", Val.ref 1)],
    Cell.obj [("data", Val.ref 2), ("total", Val.num 3)],
    Cell.arr [Val.ref 3],
    Cell.obj [("name", Val.str "x")],
    Cell.obj [("result", Val.null)],
    Cell.obj [("error", Val.ref 6)],
    Cell.obj [("code", Val.str "X")] ]

/-- An error body whose `error` property is the empty string: `{error: ''}`. -/
def emptyErrorHeap : Heap :=
  [ Cell.obj [("error", Val.str "")] ]

/-- A failure of the HTTP client for a non-2xx status, with the response it got. -/
def statusFailure (status : Int) (body : Val) : JsError :=
  { name := "AxiosError", message := "Request failed with status code " ++ toString status,
    response := some { status := status, data := body } }

/-- An HTTP client whose every call fails with status 500 and the JSON body
`null`. -/
def nullBodyApi : Transport :=
  fun h _ => (h, Outcome.reject (statusFailure 500 Val.null))

/-- Options whose `params` override carries an `accessToken` of its own:
`{params: {accessToken: 'mine'}}`.  Address 0 is `options`, 1 the override. -/
def ownTokenHeap : Heap :=
  [ Cell.obj [("params", Val.ref 1)],
    Cell.obj [("accessToken", Val.str "mine")] ]

/-! ## Primitive builders, index.js 40-45 -/

/-- The builder `Pagination(take = PaginationTake, skip = PaginationSkip)`,
index.js 40-45.  An omitted argument is `undefined`; a default parameter applies
to `undefined` and to nothing else. -/
def Pagination (h : Heap) (take skip : Val) : Heap × Val :=
  let take := if take = Val.undefined then Val.num PaginationTake else take
  let skip := if skip = Val.undefined then Val.num PaginationSkip else skip
  alloc h (Cell.obj [("take", take), ("skip", skip)])

/-! ## Further examples -/

/-- An HTTP client whose every call succeeds with the given status and body. -/
def respondingApi (status : Int) (body : Val) : Transport :=
  fun h _ => (h, Outcome.resolve { status := status, data := body })

/-- Options with an empty list of simple filters, `{filters: []}`.  Address 0 is
`options`, 1 the empty array. -/
def emptyFiltersHeap : Heap :=
  [ Cell.obj [("filters", Val.ref 1)],
    Cell.arr [] ]

/-- The properties lines 183-192 give the new `params` object, read from the
properties `ops` of `options` in the heap `h`: `fields` and `sort` when they
are arrays, `take` and `skip` when `pagination` is an object. -/
def basicProps (h : Heap) (ops : List (String × Val)) : List (String × Val) :=
  let ps1 := if isArray h (lookup ops "fields") then
      setKey [] "fields" (lookup ops "fields") else []
  let ps2 := if isArray h (lookup ops "sort") then
      setKey ps1 "sort" (lookup ops "sort") else ps1
  if isObject h (lookup ops "pagination") then
    setKey (setKey ps2 "take"
        (nullish (prop h (lookup ops "pagination") "take") (Val.num PaginationTake)))
      "skip" (nullish (prop h (lookup ops "pagination") "skip") (Val.num PaginationSkip))
  else ps2

/-- Two `options` objects over the same data: address 0 is
`{fields: ['a', 'b'], sort: [Sort('edited', 'desc')], pagination: {take: 0}}`,
address 1 is `{fields: ['a', 'b']}` without pagination.  Address 2 is the
`fields` array, 3 the `sort` array, 4 its sort, 5 the pagination. -/
def pagedHeap : Heap :=
  [ Cell.obj [("fields", Val.ref 2), ("sort", Val.ref 3), ("pagination", Val.ref 5)],
    Cell.obj [("fields", Val.ref 2)],
    Cell.arr [Val.str "a", Val.str "b"],
    Cell.arr [Val.ref 4],
    Cell.obj [("field", Val.str "edited"), ("dir", Val.str "desc")],
    Cell.obj [("take", Val.num 0)] ]

/-- Two `options` objects, each with one of the two filter inputs (test.js
78-100): address 0 is `{filters: [f]}`, address 1 is `{filter: G}`.  Address 2
is the `filters` array, 3 the simple filter `f`, 4 the custom filter `G`, 5 its
array. -/
def singleFilterHeap : Heap :=
  [ Cell.obj [("filters", Val.ref 2)],
    Cell.obj [("filter", Val.ref 4)],
    Cell.arr [Val.ref 3],
    Cell.obj [("field", Val.str "firstname"), ("operator", Val.str "eq"),
              ("value", Val.str "John")],
    Cell.obj [("logic", Val.str FilterLogicOr), ("filters", Val.ref 5)],
    Cell.arr [Val.ref 3] ]

/-- Two `options` objects in which one array is passed twice.  Address 0 is
`{fields: A, sort: S, pagination: {take: 50, skip: 0}, filters: A, filter: G}`
with `A` the shared empty array at address 2; address 1 is
`{fields: B, filters: B, filter: G}` with `B = ['a', 'b']` at address 3.
Address 4 is `S`, 5 its sort, 6 the pagination, 7 the custom filter `G`, 8 its
array, 9 its simple filter. -/
def aliasedHeap : Heap :=
  [ Cell.obj [("fields", Val.ref 2), ("sort", Val.ref 4), ("pagination", Val.ref 6),
              ("filters", Val.ref 2), ("filter", Val.ref 7)],
    Cell.obj [("fields", Val.ref 3), ("filters", Val.ref 3), ("filter", Val.ref 7)],
    Cell.arr [],
    Cell.arr [Val.str "a", Val.str "b"],
    Cell.arr [Val.ref 5],
    Cell.obj [("field", Val.str "edited"), ("dir", Val.str "desc")],
    Cell.obj [("take", Val.num 50), ("skip", Val.num 0)],
    Cell.obj [("logic", Val.str FilterLogicOr), ("filters", Val.ref 8)],
    Cell.arr [Val.ref 9],
    Cell.obj [("field", Val.str "edited"), ("operator", Val.str "lte"),
              ("value", Val.str "2023-12-31")] ]

/-! ## Heap lemmas -/

theorem getElem?_alloc_old {h : Heap} {a : Nat} {c : Cell} (c' : Cell)
    (ha : h[a]? = some c) : (h ++ [c'])[a]? = some c := by
  have hlt : a < h.length := (List.getElem?_eq_some.mp ha).1
  rw [List.getElem?_append_left hlt]; exact ha

theorem getElem?_alloc_new (h : Heap) (c : Cell) : (h ++ [c])[h.length]? = some c :=
  List.getElem?_concat_length h c

theorem lookup_setKey_self (ps : List (String × Val)) (k : String) (v : Val) :
    lookup (setKey ps k v) k = v := by
  induction ps with
  | nil => simp [setKey, lookup, List.lookup]
  | cons p ps ih =>
    obtain ⟨k', v'⟩ := p
    by_cases hk : k' = k
    · subst hk; simp [setKey, lookup, List.lookup]
    · have hk' : (k == k') = false := by simpa using fun e => hk e.symm
      simpa [setKey, hk, lookup, List.lookup, hk'] using ih

theorem lookup_setKey_ne (ps : List (String × Val)) {k k' : String} (v : Val)
    (hne : k' ≠ k) : lookup (setKey ps k v) k' = lookup ps k' := by
  induction ps with
  | nil =>
    have : (k' == k) = false := by simpa using hne
    simp [setKey, lookup, List.lookup, this]
  | cons p ps ih =>
    obtain ⟨k0, v0⟩ := p
    by_cases hk : k0 = k
    · subst hk
      have : (k' == k0) = false := by simpa using hne
      simp [setKey, lookup, List.lookup, this]
    · by_cases hk0 : k' = k0
      · subst hk0; simp [setKey, hk, lookup, List.lookup]
      · have : (k' == k0) = false := by simpa using hk0
        simpa [setKey, hk, lookup, List.lookup, this] using ih

theorem hasKey_setKey_self (ps : List (String × Val)) (k : String) (v : Val) :
    hasKey (setKey ps k v) k = true := by
  induction ps with
  | nil => simp [setKey, hasKey, List.lookup]
  | cons p ps ih =>
    obtain ⟨k', v'⟩ := p
    by_cases hk : k' = k
    · subst hk; simp [setKey, hasKey, List.lookup]
    · have hk' : (k == k') = false := by simpa using fun e => hk e.symm
      simpa [setKey, hk, hasKey, List.lookup, hk'] using ih

theorem hasKey_setKey_ne (ps : List (String × Val)) {k k' : String} (v : Val)
    (hne : k' ≠ k) : hasKey (setKey ps k v) k' = hasKey ps k' := by
  induction ps with
  | nil =>
    have : (k' == k) = false := by simpa using hne
    simp [setKey, hasKey, List.lookup, this]
  | cons p ps ih =>
    obtain ⟨k0, v0⟩ := p
    by_cases hk : k0 = k
    · subst hk
      have : (k' == k0) = false := by simpa using hne
      simp [setKey, hasKey, List.lookup, this]
    · by_cases hk0 : k' = k0
      · subst hk0; simp [setKey, hk, hasKey, List.lookup]
      · have : (k' == k0) = false := by simpa using hk0
        simpa [setKey, hk, hasKey, List.lookup, this] using ih

theorem setProp_obj {h : Heap} {a : Nat} {ps : List (String × Val)} (k : String) (v : Val)
    (ha : h[a]? = some (Cell.obj ps)) :
    setProp h (Val.ref a) k v = h.set a (Cell.obj (setKey ps k v)) := by
  simp [setProp, ha]

theorem getElem?_set_obj {h : Heap} {a : Nat} {c : Cell} (c' : Cell)
    (ha : h[a]? = some c) : (h.set a c')[a]? = some c' := by
  have hlt : a < h.length := (List.getElem?_eq_some.mp ha).1
  simp [hlt]

theorem prop_obj {h : Heap} {a : Nat} {ps : List (String × Val)} (k : String)
    (ha : h[a]? = some (Cell.obj ps)) : prop h (Val.ref a) k = lookup ps k := by
  simp [prop, ha]

theorem hasProp_obj {h : Heap} {a : Nat} {ps : List (String × Val)} (k : String)
    (ha : h[a]? = some (Cell.obj ps)) : hasProp h (Val.ref a) k = hasKey ps k := by
  simp [hasProp, ha]

theorem isObject_obj {h : Heap} {a : Nat} {ps : List (String × Val)}
    (ha : h[a]? = some (Cell.obj ps)) : isObject h (Val.ref a) = true := by
  simp [isObject, ha]

theorem isArray_arr {h : Heap} {a : Nat} {es : List Val}
    (ha : h[a]? = some (Cell.arr es)) : isArray h (Val.ref a) = true := by
  simp [isArray, ha]

theorem length_setProp (h : Heap) (o : Val) (k : String) (v : Val) :
    (setProp h o k v).length = h.length := by
  unfold setProp; split
  · split <;> simp
  · rfl

theorem length_push (h : Heap) (xs v : Val) : (push h xs v).length = h.length := by
  unfold push; split
  · split <;> simp
  · rfl

theorem getElem?_setProp_self {h : Heap} {p : Nat} {ps : List (String × Val)}
    (k : String) (v : Val) (hp : h[p]? = some (Cell.obj ps)) :
    (setProp h (Val.ref p) k v)[p]? = some (Cell.obj (setKey ps k v)) := by
  rw [setProp_obj k v hp]; exact getElem?_set_obj _ hp

theorem getElem?_setProp_other (h : Heap) {o : Val} {x : Nat} (k : String) (v : Val)
    (hne : o ≠ Val.ref x) : (setProp h o k v)[x]? = h[x]? := by
  unfold setProp; split
  · next a =>
    have hax : a ≠ x := fun e => hne (by rw [e])
    split
    · exact List.getElem?_set_ne hax
    · rfl
  · rfl

theorem getElem?_push_self {h : Heap} {a : Nat} {es : List Val} (v : Val)
    (ha : h[a]? = some (Cell.arr es)) :
    (push h (Val.ref a) v)[a]? = some (Cell.arr (es ++ [v])) := by
  simp only [push, ha]; exact getElem?_set_obj _ ha

theorem getElem?_push_other (h : Heap) {xs : Val} {x : Nat} (v : Val)
    (hne : xs ≠ Val.ref x) : (push h xs v)[x]? = h[x]? := by
  unfold push; split
  · next a =>
    have hax : a ≠ x := fun e => hne (by rw [e])
    split
    · exact List.getElem?_set_ne hax
    · rfl
  · rfl

theorem getElem?_push_obj {h : Heap} {p : Nat} {ps : List (String × Val)} (xs v : Val)
    (hp : h[p]? = some (Cell.obj ps)) : (push h xs v)[p]? = some (Cell.obj ps) := by
  unfold push; split
  · next a =>
    split
    · next es hes =>
      have hap : a ≠ p := by
        intro e; rw [e, hp] at hes; cases hes
      rw [List.getElem?_set_ne hap]; exact hp
    · exact hp
  · exact hp

/-! ## Keys kept by the shaping steps -/

theorem KeepsKeys.refl (K : List String) (p : Nat) (h : Heap) : KeepsKeys K p h h :=
  fun ps hp => ⟨ps, hp, fun _ _ => ⟨rfl, rfl⟩⟩

theorem KeepsKeys.trans {K : List String} {p : Nat} {h₁ h₂ h₃ : Heap}
    (h12 : KeepsKeys K p h₁ h₂) (h23 : KeepsKeys K p h₂ h₃) : KeepsKeys K p h₁ h₃ := by
  intro ps hp
  obtain ⟨ps₂, hp₂, hk₂⟩ := h12 ps hp
  obtain ⟨ps₃, hp₃, hk₃⟩ := h23 ps₂ hp₂
  exact ⟨ps₃, hp₃, fun k hk =>
    ⟨(hk₃ k hk).1.trans (hk₂ k hk).1, (hk₃ k hk).2.trans (hk₂ k hk).2⟩⟩

theorem KeepsKeys.alloc (K : List String) (p : Nat) (h : Heap) (c : Cell) :
    KeepsKeys K p h (h ++ [c]) :=
  fun ps hp => ⟨ps, getElem?_alloc_old c hp, fun _ _ => ⟨rfl, rfl⟩⟩

theorem KeepsKeys.push (K : List String) (p : Nat) (h : Heap) (xs v : Val) :
    KeepsKeys K p h (push h xs v) :=
  fun ps hp => ⟨ps, getElem?_push_obj xs v hp, fun _ _ => ⟨rfl, rfl⟩⟩

theorem KeepsKeys.setProp {K : List String} (p : Nat) (h : Heap) (o : Val) {k : String}
    (v : Val) (hk : k ∈ K) : KeepsKeys K p h (setProp h o k v) := by
  intro ps hp
  by_cases ho : o = Val.ref p
  · subst ho
    refine ⟨setKey ps k v, getElem?_setProp_self k v hp, fun k' hk' => ?_⟩
    have hne : k' ≠ k := fun e => hk' (e ▸ hk)
    exact ⟨lookup_setKey_ne ps v hne, hasKey_setKey_ne ps v hne⟩
  · exact ⟨ps, (getElem?_setProp_other h k v ho).trans hp, fun _ _ => ⟨rfl, rfl⟩⟩

theorem KeepsKeys.mono {K K' : List String} {p : Nat} {h h' : Heap}
    (hsub : ∀ k, k ∈ K → k ∈ K') (hk : KeepsKeys K p h h') : KeepsKeys K' p h h' := by
  intro ps hp
  obtain ⟨ps', hp', hkeys⟩ := hk ps hp
  exact ⟨ps', hp', fun k hk' => hkeys k (fun hin => hk' (hsub k hin))⟩

theorem basicKeys_sub : ∀ k, k ∈ basicKeys → k ∈ shapedKeys := by
  intro k hk
  simp only [basicKeys, List.mem_cons, List.mem_singleton, List.not_mem_nil, or_false] at hk
  rcases hk with rfl | rfl | rfl | rfl <;> decide

theorem shapeFields_basic (p : Nat) (h : Heap) (options params : Val) :
    KeepsKeys basicKeys p h (shapeFields h options params) := by
  unfold shapeFields; split
  · exact KeepsKeys.setProp p h params _ (by decide)
  · exact KeepsKeys.refl _ _ _

theorem shapeSort_basic (p : Nat) (h : Heap) (options params : Val) :
    KeepsKeys basicKeys p h (shapeSort h options params) := by
  unfold shapeSort; split
  · exact KeepsKeys.setProp p h params _ (by decide)
  · exact KeepsKeys.refl _ _ _

theorem shapePagination_basic (p : Nat) (h : Heap) (options params : Val) :
    KeepsKeys basicKeys p h (shapePagination h options params) := by
  unfold shapePagination; split
  · exact (KeepsKeys.setProp p h params _ (by decide)).trans
      (KeepsKeys.setProp p _ params _ (by decide))
  · exact KeepsKeys.refl _ _ _

theorem shapeFields_keeps (p : Nat) (h : Heap) (options params : Val) :
    KeepsKeys shapedKeys p h (shapeFields h options params) :=
  (shapeFields_basic p h options params).mono basicKeys_sub

theorem shapeSort_keeps (p : Nat) (h : Heap) (options params : Val) :
    KeepsKeys shapedKeys p h (shapeSort h options params) :=
  (shapeSort_basic p h options params).mono basicKeys_sub

theorem shapePagination_keeps (p : Nat) (h : Heap) (options params : Val) :
    KeepsKeys shapedKeys p h (shapePagination h options params) :=
  (shapePagination_basic p h options params).mono basicKeys_sub

theorem shapeFields_other (h : Heap) (options : Val) {p x : Nat} (hne : x ≠ p) :
    (shapeFields h options (Val.ref p))[x]? = h[x]? := by
  unfold shapeFields; split
  · exact getElem?_setProp_other h _ _ (fun e => hne (by cases e; rfl))
  · rfl

theorem shapeSort_other (h : Heap) (options : Val) {p x : Nat} (hne : x ≠ p) :
    (shapeSort h options (Val.ref p))[x]? = h[x]? := by
  unfold shapeSort; split
  · exact getElem?_setProp_other h _ _ (fun e => hne (by cases e; rfl))
  · rfl

theorem shapePagination_other (h : Heap) (options : Val) {p x : Nat} (hne : x ≠ p) :
    (shapePagination h options (Val.ref p))[x]? = h[x]? := by
  have hp : Val.ref p ≠ Val.ref x := fun e => hne (by cases e; rfl)
  unfold shapePagination; split
  · exact (getElem?_setProp_other _ _ _ hp).trans (getElem?_setProp_other _ _ _ hp)
  · rfl

theorem length_shapeFields (h : Heap) (options params : Val) :
    (shapeFields h options params).length = h.length := by
  unfold shapeFields; split
  · exact length_setProp _ _ _ _
  · rfl

theorem length_shapeSort (h : Heap) (options params : Val) :
    (shapeSort h options params).length = h.length := by
  unfold shapeSort; split
  · exact length_setProp _ _ _ _
  · rfl

theorem length_shapePagination (h : Heap) (options params : Val) :
    (shapePagination h options params).length = h.length := by
  unfold shapePagination; split
  · exact (length_setProp _ _ _ _).trans (length_setProp _ _ _ _)
  · rfl

theorem shapeFilters_keeps (p : Nat) (h : Heap) (options params : Val) :
    KeepsKeys shapedKeys p h (shapeFilters h options params) := by
  unfold shapeFilters; split
  · exact (KeepsKeys.alloc _ p h _).trans (KeepsKeys.setProp p _ params _ (by decide))
  · exact KeepsKeys.refl _ _ _

theorem shapeFilter_keeps (p : Nat) (h : Heap) (options params : Val) :
    KeepsKeys shapedKeys p h (shapeFilter h options params) := by
  unfold shapeFilter; split
  · split
    · exact KeepsKeys.push _ p h _ _
    · exact KeepsKeys.setProp p h params _ (by decide)
  · exact KeepsKeys.refl _ _ _

theorem shapeParams_snd (h : Heap) (options : Val) :
    (shapeParams h options).2 = Val.ref h.length := rfl

/-- The object built without an override exists after shaping and has no key
outside `shapedKeys`. -/
theorem shapeParams_keys (h : Heap) (options : Val) :
    ∃ ps, (shapeParams h options).1[h.length]? = some (Cell.obj ps) ∧
      ∀ k, k ∉ shapedKeys → lookup ps k = Val.undefined ∧ hasKey ps k = false := by
  have hnew : (h ++ [Cell.obj []])[h.length]? = some (Cell.obj []) := getElem?_alloc_new h _
  have hk : KeepsKeys shapedKeys h.length (h ++ [Cell.obj []]) (shapeParams h options).1 := by
    simp only [shapeParams, alloc]
    exact ((((shapeFields_keeps _ _ _ _).trans (shapeSort_keeps _ _ _ _)).trans
      (shapePagination_keeps _ _ _ _)).trans (shapeFilters_keeps _ _ _ _)).trans
      (shapeFilter_keeps _ _ _ _)
  obtain ⟨ps, hps, hkeys⟩ := hk [] hnew
  exact ⟨ps, hps, fun k hk => by simpa [lookup, hasKey, List.lookup] using hkeys k hk⟩


/-! ## The `params` override -/

theorem chooseParams_override {h : Heap} {o m : Nat} {ops M : List (String × Val)}
    (ho : h[o]? = some (Cell.obj ops)) (hp : lookup ops "params" = Val.ref m)
    (hm : h[m]? = some (Cell.obj M)) :
    chooseParams h (Val.ref o) = (h ++ [Cell.obj []], Val.ref m) := by
  have ho' := getElem?_alloc_old (Cell.obj []) ho
  have hm' := getElem?_alloc_old (Cell.obj []) hm
  simp [chooseParams, alloc, isObject, prop, ho', hp, hm']

/-- C1: when `options.params` is an object-shaped map `M`, the `params` of the
object returned by `buildRequestParams` is that map, and after the call its
entries are exactly those of `M`, with `accessToken` set to the connector's
token when `cookieAuth` is false and the token is not null (an `accessToken`
entry of `M` is then replaced).  Whatever `fields`, `sort`, `pagination`,
`filters` and `filter` the options carry, every key other than `accessToken`,
so `fields`, `sort`, `take`, `skip` and `filter` too, is present exactly when
`M` has it and has the value it has in `M`. -/
theorem buildRequestParams_override (c : DaktelaConnector) (h : Heap) (o m : Nat)
    (ops M : List (String × Val))
    (ho : h[o]? = some (Cell.obj ops)) (hp : lookup ops "params" = Val.ref m)
    (hm : h[m]? = some (Cell.obj M)) :
    prop (buildRequestParams c h (Val.ref o)).1 (buildRequestParams c h (Val.ref o)).2 "params"
        = Val.ref m ∧
    (buildRequestParams c h (Val.ref o)).1[m]?
        = some (Cell.obj (if c.cookieAuth = false ∧ c.accessToken ≠ Val.null
                          then setKey M "accessToken" c.accessToken else M)) ∧
    (c.cookieAuth = false → c.accessToken ≠ Val.null →
      prop (buildRequestParams c h (Val.ref o)).1 (Val.ref m) "accessToken" = c.accessToken) ∧
    ∀ k : String, k ≠ "accessToken" →
      hasProp (buildRequestParams c h (Val.ref o)).1 (Val.ref m) k = hasKey M k ∧
      prop (buildRequestParams c h (Val.ref o)).1 (Val.ref m) k = lookup M k := by
  have hm' := getElem?_alloc_old (Cell.obj []) hm
  have hcell : (buildRequestParams c h (Val.ref o)).1[m]?
      = some (Cell.obj (if c.cookieAuth = false ∧ c.accessToken ≠ Val.null
                        then setKey M "accessToken" c.accessToken else M)) := by
    simp only [buildRequestParams, chooseParams_override ho hp hm, addAccessToken, alloc]
    by_cases hc : c.cookieAuth = false ∧ c.accessToken ≠ Val.null
    · obtain ⟨h1, h2⟩ := hc
      simp only [h1, h2, Bool.not_false, Bool.true_and, ne_eq, not_false_eq_true,
        decide_True, if_true, and_self]
      rw [setProp_obj _ _ hm']
      exact getElem?_alloc_old _ (getElem?_set_obj _ hm')
    · have : (!c.cookieAuth && decide (c.accessToken ≠ Val.null)) = false := by
        rcases hb : c.cookieAuth with _ | _
        · simp [hb] at hc; simp [hc]
        · simp
      simp only [this, hc, if_false, Bool.false_eq_true]
      exact getElem?_alloc_old _ hm'
  refine ⟨?_, hcell, ?_, ?_⟩
  · simp only [buildRequestParams, chooseParams_override ho hp hm, alloc]
    have hlen : (addAccessToken c (h ++ [Cell.obj []]) (Val.ref m)).length = h.length + 1 := by
      unfold addAccessToken; split
      · rw [setProp_obj _ _ hm']; simp
      · simp
    have := getElem?_alloc_new (addAccessToken c (h ++ [Cell.obj []]) (Val.ref m))
      (Cell.obj [("params", Val.ref m)])
    rw [prop_obj _ this]
    simp [lookup, List.lookup]
  · intro h1 h2
    rw [prop_obj _ hcell]
    simp [h1, h2, lookup_setKey_self]
  · intro k hk
    rw [hasProp_obj _ hcell, prop_obj _ hcell]
    split
    · exact ⟨hasKey_setKey_ne _ _ hk, lookup_setKey_ne _ _ hk⟩
    · exact ⟨rfl, rfl⟩

/-- Witness for C1: the first call of "Build params test" under query-token
authentication. -/
theorem buildRequestParams_override_witness :
    overrideHeap[0]? = some (Cell.obj [("params", Val.ref 1), ("fields", Val.ref 2),
      ("sort", Val.ref 3), ("pagination", Val.ref 6)]) ∧
    overrideHeap[1]? = some (Cell.obj [("xxx", Val.str "yyy")]) ∧
    prop (buildRequestParams tokenConnector overrideHeap (Val.ref 0)).1
        (buildRequestParams tokenConnector overrideHeap (Val.ref 0)).2 "params" = Val.ref 1 ∧
    (buildRequestParams tokenConnector overrideHeap (Val.ref 0)).1[1]?
        = some (Cell.obj (if tokenConnector.cookieAuth = false ∧
                             tokenConnector.accessToken ≠ Val.null
                          then setKey [("xxx", Val.str "yyy")] "accessToken"
                                 tokenConnector.accessToken
                          else [("xxx", Val.str "yyy")])) ∧
    (tokenConnector.cookieAuth = false → tokenConnector.accessToken ≠ Val.null →
      prop (buildRequestParams tokenConnector overrideHeap (Val.ref 0)).1 (Val.ref 1)
        "accessToken" = tokenConnector.accessToken) ∧
    ∀ k : String, k ≠ "accessToken" →
      hasProp (buildRequestParams tokenConnector overrideHeap (Val.ref 0)).1 (Val.ref 1) k
        = hasKey [("xxx", Val.str "yyy")] k ∧
      prop (buildRequestParams tokenConnector overrideHeap (Val.ref 0)).1 (Val.ref 1) k
        = lookup [("xxx", Val.str "yyy")] k :=
  ⟨by decide, by decide,
   buildRequestParams_override tokenConnector overrideHeap 0 1
    [("params", Val.ref 1), ("fields", Val.ref 2), ("sort", Val.ref 3),
     ("pagination", Val.ref 6)]
    [("xxx", Val.str "yyy")] (by decide) (by decide) (by decide)⟩

/-! ## The access token -/

theorem isObject_iff {h : Heap} {v : Val} :
    isObject h v = true ↔ ∃ a ps, v = Val.ref a ∧ h[a]? = some (Cell.obj ps) := by
  constructor
  · intro hv
    cases v with
    | ref a =>
      cases hc : h[a]? with
      | none => simp [isObject, hc] at hv
      | some c =>
        cases c with
        | obj ps => exact ⟨a, ps, rfl, hc⟩
        | arr es => simp [isObject, hc] at hv
    | _ => simp [isObject] at hv
  · rintro ⟨a, ps, rfl, ha⟩
    exact isObject_obj ha

theorem prop_alloc_empty (h : Heap) (v : Val) (k : String) :
    prop (h ++ [Cell.obj []]) v k = prop h v k := by
  cases v with
  | ref a =>
    rcases Nat.lt_trichotomy a h.length with hlt | heq | hgt
    · simp [prop, List.getElem?_append_left hlt]
    · subst heq
      simp [prop, lookup, List.lookup]
    · have h1 : h[a]? = none := List.getElem?_eq_none (Nat.le_of_lt hgt)
      have h2 : (h ++ [Cell.obj []])[a]? = none :=
        List.getElem?_eq_none (by simp; omega)
      simp [prop, h1, h2]
  | _ => rfl

theorem hasProp_alloc_empty (h : Heap) (v : Val) (k : String) :
    hasProp (h ++ [Cell.obj []]) v k = hasProp h v k := by
  cases v with
  | ref a =>
    rcases Nat.lt_trichotomy a h.length with hlt | heq | hgt
    · simp [hasProp, List.getElem?_append_left hlt]
    · subst heq
      simp [hasProp, hasKey, List.lookup]
    · have h1 : h[a]? = none := List.getElem?_eq_none (Nat.le_of_lt hgt)
      have h2 : (h ++ [Cell.obj []])[a]? = none :=
        List.getElem?_eq_none (by simp; omega)
      simp [hasProp, h1, h2]
  | _ => rfl

theorem isObject_alloc_empty {h : Heap} {v : Val}
    (hv : isObject (h ++ [Cell.obj []]) v = true) :
    isObject h v = true ∨ v = Val.ref h.length := by
  obtain ⟨a, ps, rfl, ha⟩ := isObject_iff.mp hv
  rcases Nat.lt_trichotomy a h.length with hlt | heq | hgt
  · left
    rw [List.getElem?_append_left hlt] at ha
    exact isObject_obj ha
  · right; rw [heq]
  · have h2 : (h ++ [Cell.obj []])[a]? = none :=
      List.getElem?_eq_none (by simp; omega)
    rw [h2] at ha; cases ha

theorem isObject_alloc_mono {h : Heap} {v : Val} (c : Cell) (hv : isObject h v = true) :
    isObject (h ++ [c]) v = true := by
  obtain ⟨a, ps, rfl, ha⟩ := isObject_iff.mp hv
  exact isObject_obj (getElem?_alloc_old c ha)

/-- The object `params` refers to before the token is added: either the caller's
override itself, or an object of the new heap without an `accessToken` key. -/
theorem chooseParams_cases (h : Heap) (options : Val) :
    (isObject h options = true ∧ isObject h (prop h options "params") = true ∧
      chooseParams h options = (h ++ [Cell.obj []], prop h options "params")) ∨
    (¬ (isObject h options = true ∧ isObject h (prop h options "params") = true) ∧
      ∃ p ps, (chooseParams h options).2 = Val.ref p ∧
        (chooseParams h options).1[p]? = some (Cell.obj ps) ∧
        hasKey ps "accessToken" = false) := by
  by_cases hov : isObject h options = true ∧ isObject h (prop h options "params") = true
  · left
    refine ⟨hov.1, hov.2, ?_⟩
    simp [chooseParams, alloc, isObject_alloc_mono _ hov.1, prop_alloc_empty,
      isObject_alloc_mono _ hov.2]
  · right
    refine ⟨hov, ?_⟩
    simp only [chooseParams, alloc, prop_alloc_empty]
    split
    · next ho =>
      split
      · next hp =>
        -- only the object allocated for `let params = {}` can be meant here
        have hnew : prop h options "params" = Val.ref h.length := by
          rcases isObject_alloc_empty hp with hp' | hp'
          · rcases isObject_alloc_empty ho with ho' | ho'
            · exact absurd ⟨ho', hp'⟩ hov
            · rw [ho'] at hp'
              have : h[h.length]? = none := List.getElem?_eq_none (Nat.le_refl _)
              simp [prop, this, isObject] at hp'
          · exact hp'
        exact ⟨h.length, [], hnew, getElem?_alloc_new h _, rfl⟩
      · obtain ⟨ps, hps, hk⟩ := shapeParams_keys (h ++ [Cell.obj []]) options
        exact ⟨(h ++ [Cell.obj []]).length, ps, rfl, hps, (hk _ (by decide)).2⟩
    · exact ⟨h.length, [], rfl, getElem?_alloc_new h _, rfl⟩

theorem chooseParams_isObj (h : Heap) (options : Val) :
    ∃ p ps, (chooseParams h options).2 = Val.ref p ∧
      (chooseParams h options).1[p]? = some (Cell.obj ps) := by
  rcases chooseParams_cases h options with ⟨_, hp, heq⟩ | ⟨_, p, ps, h1, h2, _⟩
  · obtain ⟨a, ps, ha, hcell⟩ := isObject_iff.mp hp
    exact ⟨a, ps, by rw [heq]; exact ha, by rw [heq]; exact getElem?_alloc_old _ hcell⟩
  · exact ⟨p, ps, h1, h2⟩

theorem buildRequestParams_eq (c : DaktelaConnector) (h : Heap) (options : Val) :
    buildRequestParams c h options =
      (addAccessToken c (chooseParams h options).1 (chooseParams h options).2 ++
         [Cell.obj [("params", (chooseParams h options).2)]],
       Val.ref (addAccessToken c (chooseParams h options).1 (chooseParams h options).2).length) :=
  rfl

theorem buildRequestParams_params (c : DaktelaConnector) (h : Heap) (options : Val) :
    prop (buildRequestParams c h options).1 (buildRequestParams c h options).2 "params"
      = (chooseParams h options).2 := by
  rw [buildRequestParams_eq]
  rw [prop_obj _ (getElem?_alloc_new _ _)]
  simp [lookup, List.lookup]

/-- With query-token authentication the compiled map has `accessToken` equal to
the token, whatever the options are. -/
theorem buildRequestParams_token (c : DaktelaConnector) (h : Heap) (options : Val)
    (hc : c.cookieAuth = false) (ht : c.accessToken ≠ Val.null) :
    prop (buildRequestParams c h options).1
      (prop (buildRequestParams c h options).1 (buildRequestParams c h options).2 "params")
      "accessToken" = c.accessToken := by
  rw [buildRequestParams_params]
  obtain ⟨p, ps, hp, hcell⟩ := chooseParams_isObj h options
  rw [buildRequestParams_eq, hp]
  have hadd : (addAccessToken c (chooseParams h options).1 (Val.ref p))[p]?
      = some (Cell.obj (setKey ps "accessToken" c.accessToken)) := by
    simp only [addAccessToken, hc, ht, Bool.not_false, Bool.true_and, ne_eq,
      not_false_eq_true, decide_True, if_true]
    exact getElem?_setProp_self _ _ hcell
  rw [prop_obj _ (getElem?_alloc_old _ hadd)]
  exact lookup_setKey_self _ _ _

/-- C4: for a connector with `cookieAuth` false and a token `T` that is not null,
the parameter map compiled for get, `buildRequestParams(options)` for every
options value (null, non-objects and a `params` override with its own
`accessToken` included), and the one compiled for post, put and delete,
`enrichWithAccessToken(params)` for every params value, has `accessToken`
equal to `T`. -/
theorem accessToken_always_set (c : DaktelaConnector) (h : Heap) (options params : Val)
    (hc : c.cookieAuth = false) (ht : c.accessToken ≠ Val.null) :
    prop (buildRequestParams c h options).1
      (prop (buildRequestParams c h options).1 (buildRequestParams c h options).2 "params")
      "accessToken" = c.accessToken ∧
    prop (enrichWithAccessToken c h params).1
      (prop (enrichWithAccessToken c h params).1 (enrichWithAccessToken c h params).2 "params")
      "accessToken" = c.accessToken :=
  ⟨buildRequestParams_token c h options hc ht,
   buildRequestParams_token c _ _ hc ht⟩

/-- Witness for C4: the token connector, on the override that carries an
`accessToken` of its own and on `null` params. -/
theorem accessToken_always_set_witness :
    tokenConnector.cookieAuth = false ∧ tokenConnector.accessToken ≠ Val.null ∧
    prop (buildRequestParams tokenConnector ownTokenHeap (Val.ref 0)).1
      (prop (buildRequestParams tokenConnector ownTokenHeap (Val.ref 0)).1
        (buildRequestParams tokenConnector ownTokenHeap (Val.ref 0)).2 "params")
      "accessToken" = tokenConnector.accessToken ∧
    prop (enrichWithAccessToken tokenConnector ownTokenHeap Val.null).1
      (prop (enrichWithAccessToken tokenConnector ownTokenHeap Val.null).1
        (enrichWithAccessToken tokenConnector ownTokenHeap Val.null).2 "params")
      "accessToken" = tokenConnector.accessToken :=
  ⟨by decide, by decide,
   accessToken_always_set tokenConnector ownTokenHeap (Val.ref 0) Val.null
     (by decide) (by decide)⟩

/-- C3, as the code has it: the parameter map returned by `buildRequestParams`
has the key `accessToken` if and only if `cookieAuth` is false and the token is
not null, or `options.params` is an object-shaped override that already has an
`accessToken` key (the override is used as it is). -/
theorem accessToken_key_iff (c : DaktelaConnector) (h : Heap) (options : Val) :
    hasProp (buildRequestParams c h options).1
      (prop (buildRequestParams c h options).1 (buildRequestParams c h options).2 "params")
      "accessToken" = true ↔
    (c.cookieAuth = false ∧ c.accessToken ≠ Val.null) ∨
    (isObject h options = true ∧ isObject h (prop h options "params") = true ∧
      hasProp h (prop h options "params") "accessToken" = true) := by
  rw [buildRequestParams_params]
  obtain ⟨p, ps, hp, hcell⟩ := chooseParams_isObj h options
  rw [buildRequestParams_eq, hp]
  by_cases hauth : c.cookieAuth = false ∧ c.accessToken ≠ Val.null
  · have hadd : (addAccessToken c (chooseParams h options).1 (Val.ref p))[p]?
        = some (Cell.obj (setKey ps "accessToken" c.accessToken)) := by
      simp only [addAccessToken, hauth.1, hauth.2, Bool.not_false, Bool.true_and, ne_eq,
        not_false_eq_true, decide_True, if_true]
      exact getElem?_setProp_self _ _ hcell
    rw [hasProp_obj _ (getElem?_alloc_old _ hadd), hasKey_setKey_self]
    simp [hauth]
  · have hoff : (!c.cookieAuth && decide (c.accessToken ≠ Val.null)) = false := by
      rcases hb : c.cookieAuth with _ | _
      · simp [hb] at hauth; simp [hauth]
      · simp
    have hadd : (addAccessToken c (chooseParams h options).1 (Val.ref p))[p]?
        = some (Cell.obj ps) := by
      simp only [addAccessToken, hoff, if_false, Bool.false_eq_true]
      exact hcell
    rw [hasProp_obj _ (getElem?_alloc_old _ hadd)]
    rcases chooseParams_cases h options with ⟨ho, hpo, heq⟩ | ⟨hno, p', ps', h1, h2, h3⟩
    · have hpv : prop h options "params" = Val.ref p := by rw [heq] at hp; exact hp
      obtain ⟨a, psa, ha, hca⟩ := isObject_iff.mp hpo
      have hap : a = p := by rw [hpv] at ha; cases ha; rfl
      subst hap
      have hps : ps = psa := by
        rw [heq] at hcell
        have := getElem?_alloc_old (Cell.obj []) hca
        rw [this] at hcell; cases hcell; rfl
      subst hps
      rw [hpv, hasProp_obj _ hca]
      constructor
      · intro hk; exact Or.inr ⟨ho, by rw [← hpv]; exact hpo, hk⟩
      · rintro (hk | ⟨_, _, hk⟩)
        · exact absurd hk hauth
        · exact hk
    · have hpp : p' = p := by rw [hp] at h1; cases h1; rfl
      subst hpp
      have hps : ps' = ps := by rw [hcell] at h2; cases h2; rfl
      subst hps
      rw [h3]
      constructor
      · intro hk; cases hk
      · rintro (hk | ⟨ho, hpo, _⟩)
        · exact absurd hk hauth
        · exact absurd ⟨ho, hpo⟩ hno

/-- C3 as stated fails: with cookie authentication, an override that carries an
`accessToken` entry of its own comes back with that key. -/
theorem accessToken_key_iff_counterexample :
    hasProp (buildRequestParams cookieConnector ownTokenHeap (Val.ref 0)).1
      (prop (buildRequestParams cookieConnector ownTokenHeap (Val.ref 0)).1
        (buildRequestParams cookieConnector ownTokenHeap (Val.ref 0)).2 "params")
      "accessToken" = true ∧
    ¬ (cookieConnector.cookieAuth = false ∧ cookieConnector.accessToken ≠ Val.null) := by
  decide


/-! ## Simple filters together with a custom filter -/

theorem shapeFilters_array {h : Heap} {o a p : Nat} {ops ps : List (String × Val)}
    {fs : List Val} (ho : h[o]? = some (Cell.obj ops))
    (hfs : lookup ops "filters" = Val.ref a) (ha : h[a]? = some (Cell.arr fs))
    (hp : h[p]? = some (Cell.obj ps)) :
    shapeFilters h (Val.ref o) (Val.ref p) =
      (h ++ [Cell.obj [("logic", Val.str FilterLogicAnd), ("filters", Val.ref a)]]).set p
        (Cell.obj (setKey ps "filter" (Val.ref h.length))) := by
  have h1 : prop h (Val.ref o) "filters" = Val.ref a := by rw [prop_obj _ ho, hfs]
  simp only [shapeFilters, h1, isArray_arr ha, if_true, alloc]
  exact setProp_obj _ _ (getElem?_alloc_old _ hp)

theorem shapeFilter_push {h : Heap} {o a g p f : Nat} {ops ps G fps : List (String × Val)}
    {fs : List Val} (ho : h[o]? = some (Cell.obj ops))
    (hf : lookup ops "filter" = Val.ref g) (hg : h[g]? = some (Cell.obj G))
    (hp : h[p]? = some (Cell.obj ps)) (hpf : lookup ps "filter" = Val.ref f)
    (hfc : h[f]? = some (Cell.obj fps)) (hff : lookup fps "filters" = Val.ref a)
    (ha : h[a]? = some (Cell.arr fs)) :
    shapeFilter h (Val.ref o) (Val.ref p) = h.set a (Cell.arr (fs ++ [Val.ref g])) := by
  have h1 : prop h (Val.ref o) "filter" = Val.ref g := by rw [prop_obj _ ho, hf]
  have h2 : prop h (Val.ref p) "filter" = Val.ref f := by rw [prop_obj _ hp, hpf]
  have h3 : prop h (Val.ref f) "filters" = Val.ref a := by rw [prop_obj _ hfc, hff]
  simp only [shapeFilter, h1, h2, h3, isObject_obj hg, isObject_obj hfc, if_true]
  simp [push, ha]

/-- What the shaping branch leaves behind when `options.filters` is an array and
`options.filter` an object: the new `params` object at `h.length`, the group
object at `h.length + 1`, and the caller's array with the custom filter pushed
onto it. -/
theorem shapeParams_both {h : Heap} {o a g : Nat} {ops G : List (String × Val)}
    {fs : List Val} (ho : h[o]? = some (Cell.obj ops))
    (hfs : lookup ops "filters" = Val.ref a) (ha : h[a]? = some (Cell.arr fs))
    (hf : lookup ops "filter" = Val.ref g) (hg : h[g]? = some (Cell.obj G)) :
    (∃ ps, (shapeParams h (Val.ref o)).1[h.length]? = some (Cell.obj ps) ∧
      lookup ps "filter" = Val.ref (h.length + 1)) ∧
    (shapeParams h (Val.ref o)).1[h.length + 1]?
      = some (Cell.obj [("logic", Val.str FilterLogicAnd), ("filters", Val.ref a)]) ∧
    (shapeParams h (Val.ref o)).1[a]? = some (Cell.arr (fs ++ [Val.ref g])) ∧
    (∀ x, x < h.length → x ≠ a → (shapeParams h (Val.ref o)).1[x]? = h[x]?) := by
  have hol : o < h.length := (List.getElem?_eq_some.mp ho).1
  have hal : a < h.length := (List.getElem?_eq_some.mp ha).1
  have hgl : g < h.length := (List.getElem?_eq_some.mp hg).1
  have hga : g ≠ a := by intro e; rw [e, ha] at hg; cases hg
  -- the heap after lines 182-192
  obtain ⟨H3, hH3⟩ : ∃ H3, H3 = shapePagination (shapeSort (shapeFields (h ++ [Cell.obj []])
      (Val.ref o) (Val.ref h.length)) (Val.ref o) (Val.ref h.length))
      (Val.ref o) (Val.ref h.length) := ⟨_, rfl⟩
  have hlen3 : H3.length = h.length + 1 := by
    rw [hH3, length_shapePagination, length_shapeSort, length_shapeFields]; simp
  have hold3 : ∀ x, x < h.length → H3[x]? = h[x]? := by
    intro x hx
    have hne : x ≠ h.length := Nat.ne_of_lt hx
    rw [hH3, shapePagination_other _ _ hne, shapeSort_other _ _ hne,
      shapeFields_other _ _ hne, List.getElem?_append_left hx]
  obtain ⟨ps3, hps3, -⟩ :=
    (((shapeFields_basic h.length (h ++ [Cell.obj []]) (Val.ref o) (Val.ref h.length)).trans
      (shapeSort_basic _ _ _ _)).trans (shapePagination_basic _ _ _ _)) []
      (getElem?_alloc_new h _)
  rw [← hH3] at hps3
  have ho3 : H3[o]? = some (Cell.obj ops) := (hold3 o hol).trans ho
  have ha3 : H3[a]? = some (Cell.arr fs) := (hold3 a hal).trans ha
  have hg3 : H3[g]? = some (Cell.obj G) := (hold3 g hgl).trans hg
  -- lines 193-198
  obtain ⟨H5, hH5⟩ : ∃ H5, H5 = shapeFilters H3 (Val.ref o) (Val.ref h.length) := ⟨_, rfl⟩
  have hH5' := hH5
  rw [shapeFilters_array ho3 hfs ha3 hps3, hlen3] at hH5'
  have hp5 : H5[h.length]? = some (Cell.obj (setKey ps3 "filter" (Val.ref (h.length + 1)))) := by
    rw [hH5']; exact getElem?_set_obj _ (getElem?_alloc_old _ hps3)
  have hF5 : H5[h.length + 1]?
      = some (Cell.obj [("logic", Val.str FilterLogicAnd), ("filters", Val.ref a)]) := by
    rw [hH5', List.getElem?_set_ne (by omega), ← hlen3]
    exact getElem?_alloc_new H3 _
  have hold5 : ∀ x, x < h.length → H5[x]? = h[x]? := by
    intro x hx
    rw [hH5', List.getElem?_set_ne (by omega),
      List.getElem?_append_left (by omega)]
    exact hold3 x hx
  have ho5 : H5[o]? = some (Cell.obj ops) := (hold5 o hol).trans ho
  have ha5 : H5[a]? = some (Cell.arr fs) := (hold5 a hal).trans ha
  have hg5 : H5[g]? = some (Cell.obj G) := (hold5 g hgl).trans hg
  -- lines 199-205
  have hfinal : (shapeParams h (Val.ref o)).1 = H5.set a (Cell.arr (fs ++ [Val.ref g])) := by
    have : (shapeParams h (Val.ref o)).1 = shapeFilter H5 (Val.ref o) (Val.ref h.length) := by
      rw [hH5, hH3]; rfl
    rw [this]
    exact shapeFilter_push ho5 hf hg5 hp5 (lookup_setKey_self _ _ _) hF5
      (by simp [lookup, List.lookup]) ha5
  rw [hfinal]
  refine ⟨⟨_, ?_, lookup_setKey_self ps3 "filter" _⟩, ?_, ?_, ?_⟩
  · rw [List.getElem?_set_ne (by omega)]; exact hp5
  · rw [List.getElem?_set_ne (by omega)]; exact hF5
  · exact getElem?_set_obj _ ha5
  · intro x hx hxa
    rw [List.getElem?_set_ne (fun e => hxa e.symm)]
    exact hold5 x hx

theorem lookup_mem {ops : List (String × Val)} {k : String} {v : Val}
    (hl : List.lookup k ops = some v) : v ∈ ops.map Prod.snd := by
  induction ops with
  | nil => simp [List.lookup] at hl
  | cons q qs ih =>
    obtain ⟨k0, v0⟩ := q
    by_cases hk : k = k0
    · subst hk
      simp [List.lookup] at hl
      simp [hl]
    · have hb : (k == k0) = false := by simpa using hk
      simp only [List.lookup, hb] at hl
      simp only [List.map_cons, List.mem_cons]
      exact Or.inr (ih hl)

theorem inHeap_lookup {h : Heap} {o : Nat} {ops : List (String × Val)} (hc : closed h = true)
    (ho : h[o]? = some (Cell.obj ops)) (k : String) : (lookup ops k).inHeap h = true := by
  have hmem : Cell.obj ops ∈ h := List.getElem?_mem ho
  have hall := (List.all_eq_true.mp hc) _ hmem
  simp only [Cell.vals] at hall
  unfold lookup
  cases hl : List.lookup k ops with
  | none => rfl
  | some v => exact (List.all_eq_true.mp hall) v (lookup_mem hl)

/-- In a closed heap, options without an object-shaped `params` take the shaping
branch. -/
theorem chooseParams_shaped {h : Heap} {o : Nat} {ops : List (String × Val)}
    (hc : closed h = true) (ho : h[o]? = some (Cell.obj ops))
    (hp : isObject h (lookup ops "params") = false) :
    chooseParams h (Val.ref o) = shapeParams (h ++ [Cell.obj []]) (Val.ref o) := by
  have ho' := getElem?_alloc_old (Cell.obj []) ho
  have hno : isObject (h ++ [Cell.obj []]) (lookup ops "params") = false := by
    cases hx : isObject (h ++ [Cell.obj []]) (lookup ops "params") with
    | false => rfl
    | true =>
      rcases isObject_alloc_empty hx with h1 | h1
      · rw [h1] at hp; cases hp
      · have := inHeap_lookup hc ho "params"
        rw [h1] at this
        simp [Val.inHeap] at this
  simp [chooseParams, alloc, isObject_obj ho', prop_obj _ ho', hno]

/-- C2: for options without a `params` override whose `filters` is a sequence
`[f1, ..., fn]` and whose `filter` is an object-shaped composite filter `G`,
the compiled `filter` is a new object `{logic: "and", filters: A}` whose
sequence `A` holds `f1, ..., fn` in their order followed by `G` as one nested
node (n + 1 elements, `G` itself unchanged and not flattened).  `A` is the
sequence the caller passed as `filters`; every other object and array of the
caller is as it was. -/
theorem buildRequestParams_filters_and_filter (c : DaktelaConnector) (h : Heap)
    (o a g : Nat) (ops G : List (String × Val)) (fs : List Val)
    (hc : closed h = true) (ho : h[o]? = some (Cell.obj ops))
    (hp : isObject h (lookup ops "params") = false)
    (hfs : lookup ops "filters" = Val.ref a) (ha : h[a]? = some (Cell.arr fs))
    (hf : lookup ops "filter" = Val.ref g) (hg : h[g]? = some (Cell.obj G)) :
    ∃ p f : Nat,
      prop (buildRequestParams c h (Val.ref o)).1 (buildRequestParams c h (Val.ref o)).2
        "params" = Val.ref p ∧
      prop (buildRequestParams c h (Val.ref o)).1 (Val.ref p) "filter" = Val.ref f ∧
      (buildRequestParams c h (Val.ref o)).1[f]?
        = some (Cell.obj [("logic", Val.str "and"), ("filters", Val.ref a)]) ∧
      (buildRequestParams c h (Val.ref o)).1[a]? = some (Cell.arr (fs ++ [Val.ref g])) ∧
      (fs ++ [Val.ref g]).length = fs.length + 1 ∧
      (buildRequestParams c h (Val.ref o)).1[g]? = some (Cell.obj G) ∧
      ∀ x, x < h.length → x ≠ a → (buildRequestParams c h (Val.ref o)).1[x]? = h[x]? := by
  have hol : o < h.length := (List.getElem?_eq_some.mp ho).1
  have hal : a < h.length := (List.getElem?_eq_some.mp ha).1
  have hgl : g < h.length := (List.getElem?_eq_some.mp hg).1
  have hga : g ≠ a := by intro e; rw [e, ha] at hg; cases hg
  have hch := chooseParams_shaped hc ho hp
  obtain ⟨⟨ps, hps, hpf⟩, hF, hA, hold⟩ :=
    shapeParams_both (getElem?_alloc_old (Cell.obj []) ho) hfs
      (getElem?_alloc_old (Cell.obj []) ha) hf (getElem?_alloc_old (Cell.obj []) hg)
  have hlen : (h ++ [Cell.obj []]).length = h.length + 1 := by simp
  rw [hlen] at hps hF hpf
  -- the cells after the token has been added
  have hother : ∀ x, x ≠ h.length + 1 →
      (buildRequestParams c h (Val.ref o)).1[x]?
        = (shapeParams (h ++ [Cell.obj []]) (Val.ref o)).1[x]? ∨
      (buildRequestParams c h (Val.ref o)).1[x]? = none ∨
      (shapeParams (h ++ [Cell.obj []]) (Val.ref o)).1[x]? = none := by
    intro x hx
    by_cases hlt : x < (addAccessToken c (shapeParams (h ++ [Cell.obj []]) (Val.ref o)).1
        (Val.ref (h.length + 1))).length
    · left
      rw [buildRequestParams_eq, hch, shapeParams_snd, hlen]
      rw [List.getElem?_append_left hlt]
      unfold addAccessToken; split
      · exact getElem?_setProp_other _ _ _ (fun e => hx (by cases e; rfl))
      · rfl
    · right; right
      have hl2 : (addAccessToken c (shapeParams (h ++ [Cell.obj []]) (Val.ref o)).1
          (Val.ref (h.length + 1))).length
          = (shapeParams (h ++ [Cell.obj []]) (Val.ref o)).1.length := by
        unfold addAccessToken; split
        · exact length_setProp _ _ _ _
        · rfl
      exact List.getElem?_eq_none (by omega)
  have hsame : ∀ x cell, x ≠ h.length + 1 →
      (shapeParams (h ++ [Cell.obj []]) (Val.ref o)).1[x]? = some cell →
      (buildRequestParams c h (Val.ref o)).1[x]? = some cell := by
    intro x cell hx hcell
    rcases hother x hx with h1 | h1 | h1
    · rw [h1]; exact hcell
    · exfalso
      have hlt := (List.getElem?_eq_some.mp hcell).1
      have hl2 : (addAccessToken c (shapeParams (h ++ [Cell.obj []]) (Val.ref o)).1
          (Val.ref (h.length + 1))).length
          = (shapeParams (h ++ [Cell.obj []]) (Val.ref o)).1.length := by
        unfold addAccessToken; split
        · exact length_setProp _ _ _ _
        · rfl
      rw [buildRequestParams_eq, hch, shapeParams_snd, hlen] at h1
      have := List.getElem?_eq_none_iff.mp h1
      simp only [List.length_append, List.length_singleton] at this
      omega
    · rw [h1] at hcell; cases hcell
  have hparams : ∃ ps', (buildRequestParams c h (Val.ref o)).1[h.length + 1]?
      = some (Cell.obj ps') ∧ lookup ps' "filter" = Val.ref (h.length + 2) := by
    rw [buildRequestParams_eq, hch, shapeParams_snd, hlen]
    unfold addAccessToken; split
    · exact ⟨_, getElem?_alloc_old _ (getElem?_setProp_self _ _ hps),
        (lookup_setKey_ne _ _ (by decide)).trans hpf⟩
    · exact ⟨_, getElem?_alloc_old _ hps, hpf⟩
  obtain ⟨ps', hps', hpf'⟩ := hparams
  refine ⟨h.length + 1, h.length + 2, ?_, ?_, ?_, ?_, by simp, ?_, ?_⟩
  · rw [buildRequestParams_params, hch, shapeParams_snd, hlen]
  · rw [prop_obj _ hps', hpf']
  · exact hsame _ _ (by omega) hF
  · exact hsame _ _ (by omega) hA
  · exact hsame _ _ (by omega)
      ((hold g (by simp; omega) hga).trans (getElem?_alloc_old _ hg))
  · intro x hx hxa
    have hx' : (shapeParams (h ++ [Cell.obj []]) (Val.ref o)).1[x]? = h[x]? :=
      (hold x (by simp; omega) hxa).trans (List.getElem?_append_left hx)
    obtain ⟨cell, hcell⟩ : ∃ cell, h[x]? = some cell :=
      ⟨h[x], List.getElem?_eq_getElem hx⟩
    rw [hcell]
    exact hsame x cell (by omega) (hx'.trans hcell)

/-- Witness for C2: the last call of "Build params test", two simple filters
and one custom "or" filter. -/
theorem buildRequestParams_filters_and_filter_witness :
    closed filtersHeap = true ∧
    isObject filtersHeap (lookup [("filters", Val.ref 1), ("filter", Val.ref 4)] "params")
      = false ∧
    ∃ p f : Nat,
      prop (buildRequestParams cookieConnector filtersHeap (Val.ref 0)).1
        (buildRequestParams cookieConnector filtersHeap (Val.ref 0)).2 "params" = Val.ref p ∧
      prop (buildRequestParams cookieConnector filtersHeap (Val.ref 0)).1 (Val.ref p) "filter"
        = Val.ref f ∧
      (buildRequestParams cookieConnector filtersHeap (Val.ref 0)).1[f]?
        = some (Cell.obj [("logic", Val.str "and"), ("filters", Val.ref 1)]) ∧
      (buildRequestParams cookieConnector filtersHeap (Val.ref 0)).1[1]?
        = some (Cell.arr ([Val.ref 2, Val.ref 3] ++ [Val.ref 4])) ∧
      ([Val.ref 2, Val.ref 3] ++ [Val.ref 4]).length = [Val.ref 2, Val.ref 3].length + 1 ∧
      (buildRequestParams cookieConnector filtersHeap (Val.ref 0)).1[4]?
        = some (Cell.obj [("logic", Val.str FilterLogicOr), ("filters", Val.ref 5)]) ∧
      ∀ x, x < filtersHeap.length → x ≠ 1 →
        (buildRequestParams cookieConnector filtersHeap (Val.ref 0)).1[x]? = filtersHeap[x]? :=
  ⟨by decide, by decide,
   buildRequestParams_filters_and_filter cookieConnector filtersHeap 0 1 4
    [("filters", Val.ref 1), ("filter", Val.ref 4)]
    [("logic", Val.str FilterLogicOr), ("filters", Val.ref 5)]
    [Val.ref 2, Val.ref 3]
    (by decide) (by decide) (by decide) (by decide) (by decide) (by decide) (by decide)⟩

/-! ## DaktelaResponse -/

/-- C5: for a transport response with status `s` whose body is `{result: R}`,
`R` an object whose `data` is a sequence `D`, the constructor returns a
`DaktelaResponse` with `status = s` and `data = D` (the same array), with
`total = R.total` whenever `R.total` is not null, and with no `total` set when
`R.total` is null. -/
theorem DaktelaResponse_list (h : Heap) (s : Int) (b r d : Nat)
    (B R : List (String × Val)) (D : List Val)
    (hb : h[b]? = some (Cell.obj B)) (hr : lookup B "result" = Val.ref r)
    (hR : h[r]? = some (Cell.obj R)) (hd : lookup R "data" = Val.ref d)
    (hD : h[d]? = some (Cell.arr D)) :
    ∃ resp, DaktelaResponse.new h { status := s, data := Val.ref b } = Except.ok resp ∧
      resp.status = Val.num s ∧ resp.data = Val.ref d ∧
      (lookup R "total" ≠ Val.null → resp.total = some (lookup R "total")) ∧
      (lookup R "total" = Val.null → resp.total = none) := by
  refine ⟨{ status := Val.num s, data := Val.ref d,
            total := if lookup R "total" ≠ Val.null then some (lookup R "total") else none },
    ?_, rfl, rfl, ?_, ?_⟩
  · simp [DaktelaResponse.new, getProp, Val.isNullish, nullish, prop, hb, hr, hR, hd,
      isArray, hD, bind, Except.bind, pure, Except.pure]
  · intro ht; simp [ht]
  · intro ht; simp [ht]

/-- Witness for C5: the list body `{result: {data: [...], total: 3}}`. -/
theorem DaktelaResponse_list_witness :
    bodiesHeap[0]? = some (Cell.obj [("result", Val.ref 1)]) ∧
    bodiesHeap[1]? = some (Cell.obj [("data", Val.ref 2), ("total", Val.num 3)]) ∧
    bodiesHeap[2]? = some (Cell.arr [Val.ref 3]) ∧
    ∃ resp, DaktelaResponse.new bodiesHeap { status := 200, data := Val.ref 0 }
        = Except.ok resp ∧
      resp.status = Val.num 200 ∧ resp.data = Val.ref 2 ∧
      (lookup [("data", Val.ref 2), ("total", Val.num 3)] "total" ≠ Val.null →
        resp.total = some (lookup [("data", Val.ref 2), ("total", Val.num 3)] "total")) ∧
      (lookup [("data", Val.ref 2), ("total", Val.num 3)] "total" = Val.null →
        resp.total = none) :=
  ⟨by decide, by decide, by decide,
   DaktelaResponse_list bodiesHeap 200 0 1 2 [("result", Val.ref 1)]
    [("data", Val.ref 2), ("total", Val.num 3)] [Val.ref 3]
    (by decide) (by decide) (by decide) (by decide) (by decide)⟩

/-- C6, as the code has it: when `body.result` is a value `R` other than null
and undefined that is not an object with a sequence-valued `data`, the
response has `data = R` itself; `total` is `R.total` whenever `R.total` is not
null, so it reads `undefined` when `R` has no `total`, and it is not set when
`R.total` is null. -/
theorem DaktelaResponse_single (h : Heap) (s : Int) (body R : Val)
    (hbody : body.isNullish = false) (hres : prop h body "result" = R)
    (hR : R.isNullish = false) (hdata : isArray h (prop h R "data") = false) :
    ∃ resp, DaktelaResponse.new h { status := s, data := body } = Except.ok resp ∧
      resp.status = Val.num s ∧ resp.data = R ∧
      (prop h R "total" ≠ Val.null → resp.total = some (prop h R "total")) ∧
      (prop h R "total" = Val.null → resp.total = none) ∧
      (prop h R "total" = Val.undefined → resp.readTotal = Val.undefined) := by
  have hnn : R ≠ Val.null := by intro e; rw [e] at hR; cases hR
  refine ⟨{ status := Val.num s, data := R,
            total := if prop h R "total" ≠ Val.null then some (prop h R "total") else none },
    ?_, rfl, rfl, ?_, ?_, ?_⟩
  · simp [DaktelaResponse.new, getProp, hbody, hres, nullish, hR, hnn, hdata,
      bind, Except.bind, pure, Except.pure]
  · intro ht; simp [ht]
  · intro ht; simp [ht]
  · intro ht; simp [ht, DaktelaResponse.readTotal]

/-- Witness for C6: the body `{result: {a: 1, total: 5}}`. -/
theorem DaktelaResponse_single_witness :
    isArray entityWithTotalHeap (prop entityWithTotalHeap (Val.ref 1) "data") = false ∧
    ∃ resp, DaktelaResponse.new entityWithTotalHeap { status := 200, data := Val.ref 0 }
        = Except.ok resp ∧
      resp.status = Val.num 200 ∧ resp.data = Val.ref 1 ∧
      (prop entityWithTotalHeap (Val.ref 1) "total" ≠ Val.null →
        resp.total = some (prop entityWithTotalHeap (Val.ref 1) "total")) ∧
      (prop entityWithTotalHeap (Val.ref 1) "total" = Val.null → resp.total = none) ∧
      (prop entityWithTotalHeap (Val.ref 1) "total" = Val.undefined →
        resp.readTotal = Val.undefined) :=
  ⟨by decide,
   DaktelaResponse_single entityWithTotalHeap 200 (Val.ref 0) (Val.ref 1)
    (by decide) (by decide) (by decide) (by decide)⟩

/-- C6 as stated fails: the single entity `{a: 1, total: 5}` is not list-shaped,
and the response built from it has `total` 5, not `undefined`. -/
theorem DaktelaResponse_single_counterexample :
    prop entityWithTotalHeap (Val.ref 0) "result" = Val.ref 1 ∧
    isArray entityWithTotalHeap (prop entityWithTotalHeap (Val.ref 1) "data") = false ∧
    DaktelaResponse.new entityWithTotalHeap { status := 200, data := Val.ref 0 }
      = Except.ok { status := Val.num 200, data := Val.ref 1, total := some (Val.num 5) } ∧
    DaktelaResponse.readTotal
      { status := Val.num 200, data := Val.ref 1, total := some (Val.num 5) }
      ≠ Val.undefined := by
  refine ⟨by decide, by decide, rfl, by decide⟩

/-- C7: for a transport response with status `s` whose body has `result` null or
has no `result` property, the response has `status = s`, `data = null` and no
`total`.  The body is any value a property can be read from: an object, an
array, a string (the empty body of a 204), a number or a boolean. -/
theorem DaktelaResponse_null (h : Heap) (s : Int) (body : Val)
    (hbody : body.isNullish = false)
    (hres : (prop h body "result").isNullish = true) :
    DaktelaResponse.new h { status := s, data := body }
      = Except.ok { status := Val.num s, data := Val.null, total := none } := by
  simp [DaktelaResponse.new, getProp, hbody, nullish, hres, bind, Except.bind, pure,
    Except.pure]

/-- Witness for C7: the body `{result: null}` of a 204. -/
theorem DaktelaResponse_null_witness :
    (prop bodiesHeap (Val.ref 4) "result").isNullish = true ∧
    DaktelaResponse.new bodiesHeap { status := 204, data := Val.ref 4 }
      = Except.ok { status := Val.num 204, data := Val.null, total := none } :=
  ⟨by decide, DaktelaResponse_null bodiesHeap 204 (Val.ref 4) (by decide) (by decide)⟩

/-! ## DaktelaError -/

/-- C8, as the code has it: for a transport failure that carries a response with
status `s` and a body `B` (any value other than null and undefined), the
`DaktelaError` has `status = s`, its message and `prevError` are those of the
failure, and `apiError = B.error` whenever `B.error` is truthy; `apiError` is
null when `B` has no `error` property or `B.error` is falsy. -/
theorem DaktelaError_with_response (h : Heap) (e : JsError) (s : Int) (B : Val)
    (hresp : e.response = some { status := s, data := B })
    (hB : B.isNullish = false) :
    ∃ err, DaktelaError.new h e = Except.ok err ∧
      err.status = Val.num s ∧ err.message = e.message ∧ err.prevError = e ∧
      (truthy (prop h B "error") = true → err.apiError = prop h B "error") ∧
      (truthy (prop h B "error") = false → err.apiError = Val.null) ∧
      (hasProp h B "error" = false → err.apiError = Val.null) := by
  refine ⟨{ name := "DaktelaError", message := e.message, prevError := e,
            status := Val.num s,
            apiError := if truthy (prop h B "error") then prop h B "error" else Val.null },
    ?_, rfl, rfl, rfl, ?_, ?_, ?_⟩
  · simp [DaktelaError.new, hresp, getProp, hB, bind, Except.bind, pure, Except.pure]
  · intro ht; simp [ht]
  · intro ht; simp [ht]
  · intro hk
    have hu : prop h B "error" = Val.undefined := by
      cases B with
      | ref a =>
        cases hc : h[a]? with
        | none => simp [prop, hc]
        | some cell =>
          cases cell with
          | arr es => simp [prop, hc]
          | obj ps =>
            simp only [hasProp, hc, hasKey] at hk
            simp only [prop, hc, lookup]
            cases hl : List.lookup "error" ps with
            | none => rfl
            | some v => rw [hl] at hk; cases hk
      | _ => rfl
    simp [hu, truthy]

/-- Witness for C8: status 404 with the body `{error: {code: 'X'}}`. -/
theorem DaktelaError_with_response_witness :
    (statusFailure 404 (Val.ref 5)).response = some { status := 404, data := Val.ref 5 } ∧
    ∃ err, DaktelaError.new bodiesHeap (statusFailure 404 (Val.ref 5)) = Except.ok err ∧
      err.status = Val.num 404 ∧ err.message = (statusFailure 404 (Val.ref 5)).message ∧
      err.prevError = statusFailure 404 (Val.ref 5) ∧
      (truthy (prop bodiesHeap (Val.ref 5) "error") = true →
        err.apiError = prop bodiesHeap (Val.ref 5) "error") ∧
      (truthy (prop bodiesHeap (Val.ref 5) "error") = false → err.apiError = Val.null) ∧
      (hasProp bodiesHeap (Val.ref 5) "error" = false → err.apiError = Val.null) :=
  ⟨rfl, DaktelaError_with_response bodiesHeap (statusFailure 404 (Val.ref 5)) 404 (Val.ref 5)
    rfl (by decide)⟩

/-- C8 as stated fails: the body `{error: ''}` carries an `error` property, and
the `DaktelaError` built from it has `apiError` null, not that value. -/
theorem DaktelaError_with_response_counterexample :
    hasProp emptyErrorHeap (Val.ref 0) "error" = true ∧
    prop emptyErrorHeap (Val.ref 0) "error" = Val.str "" ∧
    ∃ err, DaktelaError.new emptyErrorHeap (statusFailure 404 (Val.ref 0)) = Except.ok err ∧
      err.status = Val.num 404 ∧ err.apiError = Val.null ∧
      err.apiError ≠ prop emptyErrorHeap (Val.ref 0) "error" :=
  ⟨by decide, by decide, _, rfl, rfl, rfl, by decide⟩

/-- C9: for a transport failure with no response attached, the `DaktelaError`
has `status` null and `apiError` null, its message is the message of the
failure, and the failure is kept as `prevError`. -/
theorem DaktelaError_without_response (h : Heap) (name message : String) :
    DaktelaError.new h { name := name, message := message, response := none }
      = Except.ok { name := "DaktelaError", message := message,
                    prevError := { name := name, message := message, response := none },
                    status := Val.null, apiError := Val.null } :=
  rfl

/-! ## The request methods -/

theorem getProp_error {h : Heap} {v : Val} {k : String} {err : JsError}
    (he : getProp h v k = Except.error err) : err.response = none := by
  unfold getProp at he
  split at he
  · cases he; rfl
  · cases he

/-- Every error that escapes the `try`/`catch` shared by the four methods is a
`DaktelaError`, provided a rejected call does not carry a response whose body
is null or undefined. -/
theorem settle_error_is_DaktelaError (h : Heap) (o : Outcome)
    (hbody : ∀ e r, o = Outcome.reject e → e.response = some r → r.data.isNullish = false)
    (t : Thrown) (ht : settle h o = Except.error t) : ∃ e, t = Thrown.daktelaError e := by
  have key : ∀ err : JsError,
      (∀ r, err.response = some r → r.data.isNullish = false) →
      ∃ e, DaktelaError.new h err = Except.ok e := by
    intro err herr
    cases hr : err.response with
    | none => simp [DaktelaError.new, hr, pure, Except.pure]
    | some r =>
      simp [DaktelaError.new, hr, getProp, herr r hr, bind, Except.bind, pure, Except.pure]
  cases o with
  | reject err =>
    obtain ⟨e, he⟩ := key err (fun r hr => hbody err r rfl hr)
    simp only [settle, he] at ht
    cases ht; exact ⟨e, rfl⟩
  | resolve response =>
    cases hn : DaktelaResponse.new h response with
    | ok r => simp [settle, hn] at ht
    | error err =>
      have hnone : err.response = none := by
        simp only [DaktelaResponse.new, bind, Except.bind, pure, Except.pure] at hn
        repeat' split at hn
        all_goals first
          | (cases hn; apply getProp_error; assumption)
          | cases hn
      obtain ⟨e, he⟩ := key err (fun r hr => by rw [hnone] at hr; cases hr)
      simp only [settle, hn, he] at ht
      cases ht; exact ⟨e, rfl⟩


/-- C10 fails on a failure whose response has the body `null`: reading `error`
from that body throws inside the `DaktelaError` constructor, and each of get,
post, put and delete lets that `TypeError` escape instead of a `DaktelaError`. -/
theorem request_null_body_escapes :
    (tokenConnector.get nullBodyApi [] "tickets" Val.null).2
      = Except.error (Thrown.other (typeError "error")) ∧
    (tokenConnector.post nullBodyApi [] "tickets" Val.null Val.null).2
      = Except.error (Thrown.other (typeError "error")) ∧
    (tokenConnector.put nullBodyApi [] "tickets/1" Val.null Val.null).2
      = Except.error (Thrown.other (typeError "error")) ∧
    (tokenConnector.delete nullBodyApi [] "tickets/1" Val.null).2
      = Except.error (Thrown.other (typeError "error")) :=
  ⟨rfl, rfl, rfl, rfl⟩

/-! ## Successful responses -/

/-- A response whose body is neither null nor undefined always becomes a
`DaktelaResponse` with the transport status. -/
theorem settle_resolve_ok (h : Heap) (s : Int) (body : Val) (hbody : body.isNullish = false) :
    ∃ r, settle h (Outcome.resolve { status := s, data := body }) = Except.ok r ∧
      r.status = Val.num s := by
  have hn : ∀ v : Val, nullish v Val.null ≠ Val.null → (nullish v Val.null).isNullish = false := by
    intro v hv
    cases v <;> simp_all [nullish, Val.isNullish]
  by_cases hr : nullish (prop h body "result") Val.null = Val.null
  · refine ⟨{ status := Val.num s, data := Val.null, total := none }, ?_, rfl⟩
    simp [settle, DaktelaResponse.new, getProp, hbody, hr, bind, Except.bind, pure,
      Except.pure]
  · simp [settle, DaktelaResponse.new, getProp, hbody, hr, hn _ hr, bind, Except.bind, pure,
      Except.pure]

/-- C11 fails on a 2xx response whose body is `null` or missing: reading
`result` from that body throws inside the `DaktelaResponse` constructor, the
`catch` wraps the `TypeError`, and each of get, post, put and delete fails with
a `DaktelaError` (status null) although the transport answered 200. -/
theorem request_null_body_fails :
    (cookieConnector.get (respondingApi 200 Val.null) [] "statuses" Val.null).2
      = Except.error (Thrown.daktelaError
          { name := "DaktelaError", message := (typeError "result").message,
            prevError := typeError "result", status := Val.null, apiError := Val.null }) ∧
    (cookieConnector.post (respondingApi 200 Val.null) [] "statuses" Val.null Val.null).2
      = Except.error (Thrown.daktelaError
          { name := "DaktelaError", message := (typeError "result").message,
            prevError := typeError "result", status := Val.null, apiError := Val.null }) ∧
    (cookieConnector.put (respondingApi 200 Val.null) [] "statuses/x" Val.null Val.null).2
      = Except.error (Thrown.daktelaError
          { name := "DaktelaError", message := (typeError "result").message,
            prevError := typeError "result", status := Val.null, apiError := Val.null }) ∧
    (cookieConnector.delete (respondingApi 204 Val.undefined) [] "statuses/x" Val.null).2
      = Except.error (Thrown.daktelaError
          { name := "DaktelaError", message := (typeError "result").message,
            prevError := typeError "result", status := Val.null, apiError := Val.null }) :=
  ⟨rfl, rfl, rfl, rfl⟩

/-! ## The caller's `filters` array -/

/-- C13 fails: after `buildRequestParams` on options with two simple filters and
a custom filter, the caller's `options.filters` array (address 1) holds three
elements, the custom filter (address 4) pushed last. -/
theorem buildRequestParams_mutates_filters :
    prop filtersHeap (Val.ref 0) "filters" = Val.ref 1 ∧
    prop filtersHeap (Val.ref 0) "filter" = Val.ref 4 ∧
    filtersHeap[1]? = some (Cell.arr [Val.ref 2, Val.ref 3]) ∧
    prop (buildRequestParams cookieConnector filtersHeap (Val.ref 0)).1 (Val.ref 0) "filters"
      = Val.ref 1 ∧
    (buildRequestParams cookieConnector filtersHeap (Val.ref 0)).1[1]?
      = some (Cell.arr [Val.ref 2, Val.ref 3, Val.ref 4]) := by
  decide

/-- C19 fails: two calls in a row on the same options with two simple filters
and a custom filter.  The group compiled by the first call has three elements
when it returns; the group compiled by the second call has four, the custom
filter twice. -/
theorem buildRequestParams_not_repeatable :
    prop (buildRequestParams cookieConnector filtersHeap (Val.ref 0)).1
      (prop (buildRequestParams cookieConnector filtersHeap (Val.ref 0)).1
        (prop (buildRequestParams cookieConnector filtersHeap (Val.ref 0)).1
          (buildRequestParams cookieConnector filtersHeap (Val.ref 0)).2 "params")
        "filter") "filters" = Val.ref 1 ∧
    (buildRequestParams cookieConnector filtersHeap (Val.ref 0)).1[1]?
      = some (Cell.arr [Val.ref 2, Val.ref 3, Val.ref 4]) ∧
    prop (buildRequestParams cookieConnector
        (buildRequestParams cookieConnector filtersHeap (Val.ref 0)).1 (Val.ref 0)).1
      (prop (buildRequestParams cookieConnector
          (buildRequestParams cookieConnector filtersHeap (Val.ref 0)).1 (Val.ref 0)).1
        (prop (buildRequestParams cookieConnector
            (buildRequestParams cookieConnector filtersHeap (Val.ref 0)).1 (Val.ref 0)).1
          (buildRequestParams cookieConnector
            (buildRequestParams cookieConnector filtersHeap (Val.ref 0)).1 (Val.ref 0)).2
          "params")
        "filter") "filters" = Val.ref 1 ∧
    (buildRequestParams cookieConnector
        (buildRequestParams cookieConnector filtersHeap (Val.ref 0)).1 (Val.ref 0)).1[1]?
      = some (Cell.arr [Val.ref 2, Val.ref 3, Val.ref 4, Val.ref 4]) := by
  decide

/-! ## Pagination -/

/-- C14: `Pagination(take, skip)` is `{take: take, skip: skip}`, `Pagination(take)`
is `{take: take, skip: 0}` and `Pagination()` is `{take: 100, skip: 0}`, for all
non-negative integers `take` and `skip`; for arbitrary arguments, a default
applies exactly when the argument is `undefined`, that is omitted, and any
other argument is stored as it is. -/
theorem Pagination_spec (h : Heap) (take skip : Nat) (t s : Val) :
    Pagination h (Val.num take) (Val.num skip)
      = (h ++ [Cell.obj [("take", Val.num take), ("skip", Val.num skip)]], Val.ref h.length) ∧
    Pagination h (Val.num take) Val.undefined
      = (h ++ [Cell.obj [("take", Val.num take), ("skip", Val.num 0)]], Val.ref h.length) ∧
    Pagination h Val.undefined Val.undefined
      = (h ++ [Cell.obj [("take", Val.num 100), ("skip", Val.num 0)]], Val.ref h.length) ∧
    prop (Pagination h t s).1 (Pagination h t s).2 "take"
      = (if t = Val.undefined then Val.num 100 else t) ∧
    prop (Pagination h t s).1 (Pagination h t s).2 "skip"
      = (if s = Val.undefined then Val.num 0 else s) := by
  have hnew : ∀ c : Cell, (h ++ [c])[h.length]? = some c := getElem?_alloc_new h
  refine ⟨rfl, rfl, rfl, ?_, ?_⟩
  · simp only [Pagination, alloc]
    rw [prop_obj _ (hnew _)]
    simp [lookup, List.lookup, PaginationTake]
  · simp only [Pagination, alloc]
    rw [prop_obj _ (hnew _)]
    simp [lookup, List.lookup, PaginationSkip]

/-! ## The base URL -/

/-- C16, as the code has it: the base URL is `N ++ "api/v6/"`, where `N` starts
with `https://` and ends with `/`.  `N` is the input with `https://` put in
front exactly when the input does not start with `https://`, and with one `/`
added exactly when that does not already end with `/`: trailing slashes of the
input are kept as they are. -/
theorem baseURL_normalized (url : String) (token : Val) (cookieAuth : Option Bool) :
    ∃ N : String,
      (DaktelaConnector.new url token cookieAuth).baseURL = N ++ "api/v6/" ∧
      "https://".data <+: N.data ∧ "/".data <:+ N.data ∧
      N = (if "/".data.isSuffixOf
              (if "https://".data.isPrefixOf url.data then url else "https://" ++ url).data
           then (if "https://".data.isPrefixOf url.data then url else "https://" ++ url)
           else (if "https://".data.isPrefixOf url.data then url else "https://" ++ url)
                  ++ "/") := by
  have hU : "https://".data <+:
      (if "https://".data.isPrefixOf url.data then url else "https://" ++ url).data := by
    by_cases hp : "https://".data.isPrefixOf url.data = true
    · rw [if_pos hp]; exact List.isPrefixOf_iff_prefix.mp hp
    · rw [if_neg hp, String.data_append]; exact List.prefix_append _ _
  have key : ∀ U : String, "https://".data <+: U.data →
      "https://".data <+: (if "/".data.isSuffixOf U.data then U else U ++ "/").data ∧
      "/".data <:+ (if "/".data.isSuffixOf U.data then U else U ++ "/").data := by
    intro U hpre
    by_cases hs : "/".data.isSuffixOf U.data = true
    · rw [if_pos hs]; exact ⟨hpre, List.isSuffixOf_iff_suffix.mp hs⟩
    · rw [if_neg hs, String.data_append]
      exact ⟨hpre.trans (List.prefix_append _ _), List.suffix_append _ _⟩
  exact ⟨_, rfl, (key _ hU).1, (key _ hU).2, rfl⟩

/-- C16 as stated fails: an input that ends with two slashes keeps both, and an
input with the scheme `http://` still gets `https://` put in front. -/
theorem baseURL_normalized_counterexample :
    (DaktelaConnector.new "my.daktela.com//" Val.null none).baseURL
      = "https://my.daktela.com//" ++ "api/v6/" ∧
    "//".data <:+ "https://my.daktela.com//".data ∧
    (DaktelaConnector.new "http://my.daktela.com" Val.null none).baseURL
      = "https://http://my.daktela.com/" ++ "api/v6/" := by
  refine ⟨by decide, ?_, by decide⟩
  exact List.isSuffixOf_iff_suffix.mp (by decide)

/-! ## The shaping branch in closed form -/

theorem set_alloc (h : Heap) (c c' : Cell) : (h ++ [c]).set h.length c' = h ++ [c'] := by
  induction h with
  | nil => rfl
  | cons x xs ih => simp [List.set, ih]

theorem set_alloc_two (h : Heap) (c d c' : Cell) :
    (h ++ [c] ++ [d]).set h.length c' = h ++ [c', d] := by
  induction h with
  | nil => rfl
  | cons x xs ih => simp [List.set]

theorem inHeap_alloc {h : Heap} {v : Val} (c : Cell) (hv : v.inHeap h = true) :
    v.inHeap (h ++ [c]) = true := by
  cases v with
  | ref a =>
    simp only [Val.inHeap, decide_eq_true_eq] at hv
    simp only [Val.inHeap, decide_eq_true_eq, List.length_append, List.length_singleton]
    omega
  | _ => rfl

theorem isArray_alloc_obj (h : Heap) (ps : List (String × Val)) (v : Val) :
    isArray (h ++ [Cell.obj ps]) v = isArray h v := by
  cases v with
  | ref a =>
    rcases Nat.lt_trichotomy a h.length with hlt | heq | hgt
    · simp [isArray, List.getElem?_append_left hlt]
    · subst heq
      simp [isArray]
    · have h1 : h[a]? = none := List.getElem?_eq_none (Nat.le_of_lt hgt)
      have h2 : (h ++ [Cell.obj ps])[a]? = none :=
        List.getElem?_eq_none (by simp; omega)
      simp [isArray, h1, h2]
  | _ => rfl

theorem isObject_alloc_inHeap {h : Heap} {v : Val} (c : Cell) (hv : v.inHeap h = true) :
    isObject (h ++ [c]) v = isObject h v := by
  cases v with
  | ref a =>
    have hlt : a < h.length := by simpa [Val.inHeap] using hv
    simp [isObject, List.getElem?_append_left hlt]
  | _ => rfl

theorem isArray_alloc_inHeap {h : Heap} {v : Val} (c : Cell) (hv : v.inHeap h = true) :
    isArray (h ++ [c]) v = isArray h v := by
  cases v with
  | ref a =>
    have hlt : a < h.length := by simpa [Val.inHeap] using hv
    simp [isArray, List.getElem?_append_left hlt]
  | _ => rfl

theorem prop_alloc_inHeap {h : Heap} {v : Val} (c : Cell) (k : String)
    (hv : v.inHeap h = true) : prop (h ++ [c]) v k = prop h v k := by
  cases v with
  | ref a =>
    have hlt : a < h.length := by simpa [Val.inHeap] using hv
    simp [prop, List.getElem?_append_left hlt]
  | _ => rfl

theorem shapeFields_alloc {h : Heap} {o : Nat} {ops : List (String × Val)}
    (ps : List (String × Val)) (ho : h[o]? = some (Cell.obj ops)) :
    shapeFields (h ++ [Cell.obj ps]) (Val.ref o) (Val.ref h.length)
      = h ++ [Cell.obj (if isArray h (lookup ops "fields")
                        then setKey ps "fields" (lookup ops "fields") else ps)] := by
  have ho' := getElem?_alloc_old (Cell.obj ps) ho
  simp only [shapeFields, prop_obj _ ho', isArray_alloc_obj]
  split
  · rw [setProp_obj _ _ (getElem?_alloc_new h _), set_alloc]
  · rfl

theorem shapeSort_alloc {h : Heap} {o : Nat} {ops : List (String × Val)}
    (ps : List (String × Val)) (ho : h[o]? = some (Cell.obj ops)) :
    shapeSort (h ++ [Cell.obj ps]) (Val.ref o) (Val.ref h.length)
      = h ++ [Cell.obj (if isArray h (lookup ops "sort")
                        then setKey ps "sort" (lookup ops "sort") else ps)] := by
  have ho' := getElem?_alloc_old (Cell.obj ps) ho
  simp only [shapeSort, prop_obj _ ho', isArray_alloc_obj]
  split
  · rw [setProp_obj _ _ (getElem?_alloc_new h _), set_alloc]
  · rfl

theorem shapePagination_alloc {h : Heap} {o : Nat} {ops : List (String × Val)}
    (ps : List (String × Val)) (ho : h[o]? = some (Cell.obj ops))
    (hq : (lookup ops "pagination").inHeap h = true) :
    shapePagination (h ++ [Cell.obj ps]) (Val.ref o) (Val.ref h.length)
      = h ++ [Cell.obj (if isObject h (lookup ops "pagination") then
          setKey (setKey ps "take"
              (nullish (prop h (lookup ops "pagination") "take") (Val.num PaginationTake)))
            "skip"
            (nullish (prop h (lookup ops "pagination") "skip") (Val.num PaginationSkip))
          else ps)] := by
  have ho' : ∀ qs, (h ++ [Cell.obj qs])[o]? = some (Cell.obj ops) :=
    fun qs => getElem?_alloc_old (Cell.obj qs) ho
  simp only [shapePagination, prop_obj _ (ho' ps), isObject_alloc_inHeap _ hq,
    prop_alloc_inHeap _ _ hq]
  split
  · rw [setProp_obj _ _ (getElem?_alloc_new h _), set_alloc,
      prop_obj _ (ho' _), prop_alloc_inHeap _ _ hq,
      setProp_obj _ _ (getElem?_alloc_new h _), set_alloc]
  · rfl

/-- Lines 182-192 leave the caller's cells alone and give the new `params`
object the properties `basicProps`. -/
theorem basicPhase {h : Heap} {o : Nat} {ops : List (String × Val)}
    (ho : h[o]? = some (Cell.obj ops)) (hq : (lookup ops "pagination").inHeap h = true) :
    shapePagination (shapeSort (shapeFields (h ++ [Cell.obj []]) (Val.ref o)
        (Val.ref h.length)) (Val.ref o) (Val.ref h.length)) (Val.ref o) (Val.ref h.length)
      = h ++ [Cell.obj (basicProps h ops)] := by
  rw [shapeFields_alloc _ ho, shapeSort_alloc _ ho, shapePagination_alloc _ ho hq]
  rfl

theorem basicProps_filter (h : Heap) (ops : List (String × Val)) :
    lookup (basicProps h ops) "filter" = Val.undefined ∧
    hasKey (basicProps h ops) "filter" = false := by
  have hl : ∀ (ps : List (String × Val)) (k : String) (v : Val), k ≠ "filter" →
      lookup (setKey ps k v) "filter" = lookup ps "filter" :=
    fun ps k v hk => lookup_setKey_ne ps v (fun e => hk e.symm)
  have hk : ∀ (ps : List (String × Val)) (k : String) (v : Val), k ≠ "filter" →
      hasKey (setKey ps k v) "filter" = hasKey ps "filter" :=
    fun ps k v hk => hasKey_setKey_ne ps v (fun e => hk e.symm)
  have h0 : lookup [] "filter" = Val.undefined := rfl
  have k0 : hasKey [] "filter" = false := rfl
  unfold basicProps
  constructor
  · split_ifs <;> simp only [hl _ _ _ (by decide : "fields" ≠ "filter"),
      hl _ _ _ (by decide : "sort" ≠ "filter"), hl _ _ _ (by decide : "take" ≠ "filter"),
      hl _ _ _ (by decide : "skip" ≠ "filter"), h0]
  · split_ifs <;> simp only [hk _ _ _ (by decide : "fields" ≠ "filter"),
      hk _ _ _ (by decide : "sort" ≠ "filter"), hk _ _ _ (by decide : "take" ≠ "filter"),
      hk _ _ _ (by decide : "skip" ≠ "filter"), k0]

theorem shapeFilters_alloc {h : Heap} {o : Nat} {ops : List (String × Val)}
    (ps : List (String × Val)) (ho : h[o]? = some (Cell.obj ops)) :
    shapeFilters (h ++ [Cell.obj ps]) (Val.ref o) (Val.ref h.length)
      = if isArray h (lookup ops "filters") then
          h ++ [Cell.obj (setKey ps "filter" (Val.ref (h.length + 1))),
                Cell.obj [("logic", Val.str FilterLogicAnd),
                          ("filters", lookup ops "filters")]]
        else h ++ [Cell.obj ps] := by
  have ho' := getElem?_alloc_old (Cell.obj ps) ho
  simp only [shapeFilters, prop_obj _ ho', isArray_alloc_obj, alloc]
  split
  · rw [setProp_obj _ _ (getElem?_alloc_old _ (getElem?_alloc_new h (Cell.obj ps))),
      set_alloc_two]
    simp
  · rfl

/-- Lines 199-205 when no group was built from `options.filters`. -/
theorem shapeFilter_alloc {h : Heap} {o : Nat} {ops : List (String × Val)}
    (ps : List (String × Val)) (ho : h[o]? = some (Cell.obj ops))
    (hg : (lookup ops "filter").inHeap h = true)
    (hps : lookup ps "filter" = Val.undefined) :
    shapeFilter (h ++ [Cell.obj ps]) (Val.ref o) (Val.ref h.length)
      = if isObject h (lookup ops "filter") then
          h ++ [Cell.obj (setKey ps "filter" (lookup ops "filter"))]
        else h ++ [Cell.obj ps] := by
  have ho' := getElem?_alloc_old (Cell.obj ps) ho
  have hp : prop (h ++ [Cell.obj ps]) (Val.ref h.length) "filter" = Val.undefined := by
    rw [prop_obj _ (getElem?_alloc_new h _), hps]
  simp only [shapeFilter, prop_obj _ ho', isObject_alloc_inHeap _ hg, hp]
  split
  · simp only [isObject, Bool.false_eq_true, if_false]
    rw [setProp_obj _ _ (getElem?_alloc_new h _), set_alloc]
  · rfl

/-- Lines 199-205 when `options.filter` is not an object: nothing happens. -/
theorem shapeFilter_skip {H : Heap} {o : Nat} {ops : List (String × Val)} (params : Val)
    (ho : H[o]? = some (Cell.obj ops)) (hg : isObject H (lookup ops "filter") = false) :
    shapeFilter H (Val.ref o) params = H := by
  simp [shapeFilter, prop_obj _ ho, hg]

theorem shapeParams_unfold (h : Heap) (options : Val) :
    (shapeParams h options).1 =
      shapeFilter (shapeFilters (shapePagination (shapeSort (shapeFields (h ++ [Cell.obj []])
        options (Val.ref h.length)) options (Val.ref h.length)) options (Val.ref h.length))
        options (Val.ref h.length)) options (Val.ref h.length) := rfl

/-- Only `options.filters` is an array: the new group object refers to it. -/
theorem shapeParams_filters_only {h : Heap} {o : Nat} {ops : List (String × Val)}
    (ho : h[o]? = some (Cell.obj ops)) (hq : (lookup ops "pagination").inHeap h = true)
    (hg : (lookup ops "filter").inHeap h = true)
    (hfs : isArray h (lookup ops "filters") = true)
    (hf : isObject h (lookup ops "filter") = false) :
    (shapeParams h (Val.ref o)).1 =
      h ++ [Cell.obj (setKey (basicProps h ops) "filter" (Val.ref (h.length + 1))),
            Cell.obj [("logic", Val.str FilterLogicAnd), ("filters", lookup ops "filters")]] := by
  rw [shapeParams_unfold, basicPhase ho hq, shapeFilters_alloc _ ho, if_pos hfs]
  apply @shapeFilter_skip _ o ops
  · have hol : o < h.length := (List.getElem?_eq_some.mp ho).1
    rw [List.getElem?_append_left hol]; exact ho
  · have h2 : (lookup ops "filter").inHeap
        (h ++ [Cell.obj (setKey (basicProps h ops) "filter" (Val.ref (h.length + 1)))])
        = true := inHeap_alloc _ hg
    have e : h ++ [Cell.obj (setKey (basicProps h ops) "filter" (Val.ref (h.length + 1))),
        Cell.obj [("logic", Val.str FilterLogicAnd), ("filters", lookup ops "filters")]]
        = (h ++ [Cell.obj (setKey (basicProps h ops) "filter" (Val.ref (h.length + 1)))])
          ++ [Cell.obj [("logic", Val.str FilterLogicAnd),
                        ("filters", lookup ops "filters")]] := by simp
    rw [e, isObject_alloc_inHeap _ h2, isObject_alloc_inHeap _ hg]
    exact hf

/-- No array in `options.filters`: `params.filter` is `options.filter` itself when
that is an object, and is not set otherwise. -/
theorem shapeParams_no_filters {h : Heap} {o : Nat} {ops : List (String × Val)}
    (ho : h[o]? = some (Cell.obj ops)) (hq : (lookup ops "pagination").inHeap h = true)
    (hg : (lookup ops "filter").inHeap h = true)
    (hfs : isArray h (lookup ops "filters") = false) :
    (shapeParams h (Val.ref o)).1 =
      h ++ [Cell.obj (if isObject h (lookup ops "filter")
                      then setKey (basicProps h ops) "filter" (lookup ops "filter")
                      else basicProps h ops)] := by
  rw [shapeParams_unfold, basicPhase ho hq, shapeFilters_alloc _ ho, hfs]
  simp only [Bool.false_eq_true, if_false]
  rw [shapeFilter_alloc _ ho hg (basicProps_filter h ops).1]
  split <;> rfl

theorem isArray_iff {h : Heap} {v : Val} :
    isArray h v = true ↔ ∃ a es, v = Val.ref a ∧ h[a]? = some (Cell.arr es) := by
  constructor
  · intro hv
    cases v with
    | ref a =>
      cases hc : h[a]? with
      | none => simp [isArray, hc] at hv
      | some c =>
        cases c with
        | obj ps => simp [isArray, hc] at hv
        | arr es => exact ⟨a, es, rfl, hc⟩
    | _ => simp [isArray] at hv
  · rintro ⟨a, es, rfl, ha⟩
    exact isArray_arr ha

theorem basicProps_alloc {h : Heap} (ops : List (String × Val))
    (hq : (lookup ops "pagination").inHeap h = true) :
    basicProps (h ++ [Cell.obj []]) ops = basicProps h ops := by
  simp only [basicProps, isArray_alloc_obj, isObject_alloc_inHeap _ hq,
    prop_alloc_inHeap _ _ hq]

theorem basicProps_fields (h : Heap) (ops : List (String × Val)) :
    lookup (basicProps h ops) "fields"
      = (if isArray h (lookup ops "fields") then lookup ops "fields" else Val.undefined) ∧
    hasKey (basicProps h ops) "fields" = isArray h (lookup ops "fields") := by
  have h0 : lookup [] "fields" = Val.undefined := rfl
  have k0 : hasKey [] "fields" = false := rfl
  unfold basicProps
  constructor
  · split_ifs <;>
      simp only [lookup_setKey_ne _ _ (by decide : "fields" ≠ "sort"),
        lookup_setKey_ne _ _ (by decide : "fields" ≠ "take"),
        lookup_setKey_ne _ _ (by decide : "fields" ≠ "skip"), lookup_setKey_self, h0]
  · split_ifs <;>
      simp_all only [hasKey_setKey_ne _ _ (by decide : "fields" ≠ "sort"),
        hasKey_setKey_ne _ _ (by decide : "fields" ≠ "take"),
        hasKey_setKey_ne _ _ (by decide : "fields" ≠ "skip"), hasKey_setKey_self, k0,
        Bool.not_eq_true]

theorem basicProps_sort (h : Heap) (ops : List (String × Val)) :
    lookup (basicProps h ops) "sort"
      = (if isArray h (lookup ops "sort") then lookup ops "sort" else Val.undefined) ∧
    hasKey (basicProps h ops) "sort" = isArray h (lookup ops "sort") := by
  have h0 : lookup [] "sort" = Val.undefined := rfl
  have k0 : hasKey [] "sort" = false := rfl
  unfold basicProps
  constructor
  · split_ifs <;>
      simp only [lookup_setKey_ne _ _ (by decide : "sort" ≠ "fields"),
        lookup_setKey_ne _ _ (by decide : "sort" ≠ "take"),
        lookup_setKey_ne _ _ (by decide : "sort" ≠ "skip"), lookup_setKey_self, h0]
  · split_ifs <;>
      simp_all only [hasKey_setKey_ne _ _ (by decide : "sort" ≠ "fields"),
        hasKey_setKey_ne _ _ (by decide : "sort" ≠ "take"),
        hasKey_setKey_ne _ _ (by decide : "sort" ≠ "skip"), hasKey_setKey_self, k0,
        Bool.not_eq_true]

theorem basicProps_paged {h : Heap} (ops : List (String × Val))
    (hq : isObject h (lookup ops "pagination") = true) :
    lookup (basicProps h ops) "take"
      = nullish (prop h (lookup ops "pagination") "take") (Val.num PaginationTake) ∧
    lookup (basicProps h ops) "skip"
      = nullish (prop h (lookup ops "pagination") "skip") (Val.num PaginationSkip) := by
  simp only [basicProps, hq, if_true]
  exact ⟨by rw [lookup_setKey_ne _ _ (by decide : "take" ≠ "skip"), lookup_setKey_self],
    lookup_setKey_self _ _ _⟩

theorem basicProps_unpaged {h : Heap} (ops : List (String × Val))
    (hq : isObject h (lookup ops "pagination") = false) :
    hasKey (basicProps h ops) "take" = false ∧ hasKey (basicProps h ops) "skip" = false := by
  have k0 : hasKey [] "take" = false := rfl
  have k1 : hasKey [] "skip" = false := rfl
  simp only [basicProps, hq, Bool.false_eq_true, if_false]
  constructor
  · split_ifs <;>
      simp only [hasKey_setKey_ne _ _ (by decide : "take" ≠ "fields"),
        hasKey_setKey_ne _ _ (by decide : "take" ≠ "sort"), k0]
  · split_ifs <;>
      simp only [hasKey_setKey_ne _ _ (by decide : "skip" ≠ "fields"),
        hasKey_setKey_ne _ _ (by decide : "skip" ≠ "sort"), k1]

theorem shapeFilters_keepsK {K : List String} (hk : "filter" ∈ K) (p : Nat) (h : Heap)
    (options params : Val) : KeepsKeys K p h (shapeFilters h options params) := by
  unfold shapeFilters; split
  · exact (KeepsKeys.alloc _ p h _).trans (KeepsKeys.setProp p _ params _ hk)
  · exact KeepsKeys.refl _ _ _

theorem shapeFilter_keepsK {K : List String} (hk : "filter" ∈ K) (p : Nat) (h : Heap)
    (options params : Val) : KeepsKeys K p h (shapeFilter h options params) := by
  unfold shapeFilter; split
  · split
    · exact KeepsKeys.push _ p h _ _
    · exact KeepsKeys.setProp p h params _ hk
  · exact KeepsKeys.refl _ _ _

/-- Whatever the filters are, the new `params` object has, for every key other
than `filter`, what lines 183-192 gave it. -/
theorem shapeParams_params_cell {h : Heap} {o : Nat} {ops : List (String × Val)}
    (ho : h[o]? = some (Cell.obj ops)) (hq : (lookup ops "pagination").inHeap h = true) :
    ∃ ps, (shapeParams h (Val.ref o)).1[h.length]? = some (Cell.obj ps) ∧
      ∀ k, k ≠ "filter" →
        lookup ps k = lookup (basicProps h ops) k ∧
        hasKey ps k = hasKey (basicProps h ops) k := by
  have hk : KeepsKeys ["filter"] h.length (h ++ [Cell.obj (basicProps h ops)])
      (shapeParams h (Val.ref o)).1 := by
    rw [shapeParams_unfold, basicPhase ho hq]
    exact (shapeFilters_keepsK (by decide) _ _ _ _).trans
      (shapeFilter_keepsK (by decide) _ _ _ _)
  obtain ⟨ps, hps, hkeys⟩ := hk _ (getElem?_alloc_new h _)
  exact ⟨ps, hps, fun k hk' => hkeys k (by simpa using hk')⟩

/-- The shaping branch changes no cell of the caller, except the array passed as
`options.filters` (when a custom filter is pushed onto it). -/
theorem shapeParams_frame {h : Heap} {o : Nat} {ops : List (String × Val)}
    (ho : h[o]? = some (Cell.obj ops)) (hq : (lookup ops "pagination").inHeap h = true)
    (hg : (lookup ops "filter").inHeap h = true) (x : Nat) (hx : x < h.length)
    (hne : lookup ops "filters" ≠ Val.ref x) :
    (shapeParams h (Val.ref o)).1[x]? = h[x]? := by
  by_cases hfs : isArray h (lookup ops "filters") = true
  · by_cases hf : isObject h (lookup ops "filter") = true
    · obtain ⟨a, fs, hA, ha⟩ := isArray_iff.mp hfs
      obtain ⟨g, G, hG, hgc⟩ := isObject_iff.mp hf
      have hxa : x ≠ a := fun e => hne (by rw [hA, e])
      exact (shapeParams_both ho hA ha hG hgc).2.2.2 x hx hxa
    · rw [shapeParams_filters_only ho hq hg hfs (by simpa using hf)]
      exact List.getElem?_append_left hx
  · rw [shapeParams_no_filters ho hq hg (by simpa using hfs)]
    exact List.getElem?_append_left hx

/-! ## From the shaping branch to the returned map -/

theorem getElem?_two_fst (l : Heap) (c d : Cell) : (l ++ [c, d])[l.length]? = some c := by
  rw [List.getElem?_append_right (Nat.le_refl _)]; simp

theorem getElem?_two_snd (l : Heap) (c d : Cell) : (l ++ [c, d])[l.length + 1]? = some d := by
  rw [List.getElem?_append_right (Nat.le_succ _)]; simp

theorem length_addAccessToken (c : DaktelaConnector) (h : Heap) (params : Val) :
    (addAccessToken c h params).length = h.length := by
  unfold addAccessToken; split
  · exact length_setProp _ _ _ _
  · rfl

theorem addAccessToken_other (c : DaktelaConnector) (h : Heap) {p x : Nat} (hne : x ≠ p) :
    (addAccessToken c h (Val.ref p))[x]? = h[x]? := by
  unfold addAccessToken; split
  · exact getElem?_setProp_other h _ _ (fun e => hne (by cases e; rfl))
  · rfl

theorem addAccessToken_keeps (c : DaktelaConnector) (p : Nat) (h : Heap) (params : Val) :
    KeepsKeys ["accessToken"] p h (addAccessToken c h params) := by
  unfold addAccessToken; split
  · exact KeepsKeys.setProp p h params _ (by decide)
  · exact KeepsKeys.refl _ _ _

/-- On a closed heap and without an override, the returned map is the object the
shaping branch built, at address `h.length + 1`; the token is the only key
added to it afterwards, and no other cell changes afterwards. -/
theorem buildRequestParams_shaped {h : Heap} {o : Nat} {ops : List (String × Val)}
    (c : DaktelaConnector) (hc : closed h = true) (ho : h[o]? = some (Cell.obj ops))
    (hp : isObject h (lookup ops "params") = false) :
    prop (buildRequestParams c h (Val.ref o)).1 (buildRequestParams c h (Val.ref o)).2 "params"
      = Val.ref (h.length + 1) ∧
    (∀ x cell, x ≠ h.length + 1 →
      (shapeParams (h ++ [Cell.obj []]) (Val.ref o)).1[x]? = some cell →
      (buildRequestParams c h (Val.ref o)).1[x]? = some cell) ∧
    (∀ ps, (shapeParams (h ++ [Cell.obj []]) (Val.ref o)).1[h.length + 1]?
        = some (Cell.obj ps) →
      ∃ ps', (buildRequestParams c h (Val.ref o)).1[h.length + 1]? = some (Cell.obj ps') ∧
        ∀ k, k ≠ "accessToken" → lookup ps' k = lookup ps k ∧ hasKey ps' k = hasKey ps k) := by
  have hch := chooseParams_shaped hc ho hp
  have hlen : (h ++ [Cell.obj []]).length = h.length + 1 := by simp
  have hR : (buildRequestParams c h (Val.ref o)).1
      = addAccessToken c (shapeParams (h ++ [Cell.obj []]) (Val.ref o)).1
          (Val.ref (h.length + 1)) ++ [Cell.obj [("params", Val.ref (h.length + 1))]] := by
    rw [buildRequestParams_eq, hch, shapeParams_snd, hlen]
  refine ⟨?_, ?_, ?_⟩
  · rw [buildRequestParams_params, hch, shapeParams_snd, hlen]
  · intro x cell hx hcell
    rw [hR]
    apply getElem?_alloc_old
    rw [addAccessToken_other _ _ hx]; exact hcell
  · intro ps hps
    obtain ⟨ps', hps', hk⟩ := addAccessToken_keeps c (h.length + 1) _ (Val.ref (h.length + 1))
      ps hps
    refine ⟨ps', ?_, fun k hk' => hk k (by simpa using hk')⟩
    rw [hR]; exact getElem?_alloc_old _ hps'

theorem closed_inHeap_alloc {h : Heap} {o : Nat} {ops : List (String × Val)}
    (hc : closed h = true) (ho : h[o]? = some (Cell.obj ops)) (k : String) :
    (lookup ops k).inHeap (h ++ [Cell.obj []]) = true :=
  inHeap_alloc _ (inHeap_lookup hc ho k)

/-- Only simple filters: the compiled filter is a new group around the caller's
array, and no cell of the caller changes. -/
theorem buildRequestParams_filters_only {h : Heap} {o : Nat} {ops : List (String × Val)}
    (c : DaktelaConnector) (hc : closed h = true) (ho : h[o]? = some (Cell.obj ops))
    (hp : isObject h (lookup ops "params") = false)
    (hfs : isArray h (lookup ops "filters") = true)
    (hf : isObject h (lookup ops "filter") = false) :
    prop (buildRequestParams c h (Val.ref o)).1 (buildRequestParams c h (Val.ref o)).2 "params"
      = Val.ref (h.length + 1) ∧
    prop (buildRequestParams c h (Val.ref o)).1 (Val.ref (h.length + 1)) "filter"
      = Val.ref (h.length + 2) ∧
    hasProp (buildRequestParams c h (Val.ref o)).1 (Val.ref (h.length + 1)) "filter" = true ∧
    (buildRequestParams c h (Val.ref o)).1[h.length + 2]?
      = some (Cell.obj [("logic", Val.str FilterLogicAnd),
                        ("filters", lookup ops "filters")]) ∧
    ∀ x, x < h.length → (buildRequestParams c h (Val.ref o)).1[x]? = h[x]? := by
  obtain ⟨hparams, hsame, hcell⟩ := buildRequestParams_shaped c hc ho hp
  have ho0 := getElem?_alloc_old (Cell.obj []) ho
  have hlen : (h ++ [Cell.obj []]).length = h.length + 1 := by simp
  have hH := shapeParams_filters_only ho0 (closed_inHeap_alloc hc ho _)
    (closed_inHeap_alloc hc ho _) (by rw [isArray_alloc_obj]; exact hfs)
    (by rw [isObject_alloc_inHeap _ (inHeap_lookup hc ho _)]; exact hf)
  rw [hlen] at hH
  have hp1 := getElem?_two_fst (h ++ [Cell.obj []])
    (Cell.obj (setKey (basicProps (h ++ [Cell.obj []]) ops) "filter" (Val.ref (h.length + 2))))
    (Cell.obj [("logic", Val.str FilterLogicAnd), ("filters", lookup ops "filters")])
  have hp2 := getElem?_two_snd (h ++ [Cell.obj []])
    (Cell.obj (setKey (basicProps (h ++ [Cell.obj []]) ops) "filter" (Val.ref (h.length + 2))))
    (Cell.obj [("logic", Val.str FilterLogicAnd), ("filters", lookup ops "filters")])
  rw [hlen, ← hH] at hp1 hp2
  obtain ⟨ps', hps', hk⟩ := hcell _ hp1
  refine ⟨hparams, ?_, ?_, hsame _ _ (by omega) hp2, ?_⟩
  · rw [prop_obj _ hps', (hk "filter" (by decide)).1, lookup_setKey_self]
  · rw [hasProp_obj _ hps', (hk "filter" (by decide)).2, hasKey_setKey_self]
  · intro x hx
    have hxc : h[x]? = some h[x] := List.getElem?_eq_getElem hx
    rw [hxc]
    apply hsame x _ (by omega)
    rw [hH, List.getElem?_append_left (by simp; omega), List.getElem?_append_left hx]
    exact hxc

/-- No array of simple filters: the compiled filter is `options.filter` itself
when that is an object, there is no `filter` key otherwise, and no cell of the
caller changes. -/
theorem buildRequestParams_no_filters {h : Heap} {o : Nat} {ops : List (String × Val)}
    (c : DaktelaConnector) (hc : closed h = true) (ho : h[o]? = some (Cell.obj ops))
    (hp : isObject h (lookup ops "params") = false)
    (hfs : isArray h (lookup ops "filters") = false) :
    prop (buildRequestParams c h (Val.ref o)).1 (buildRequestParams c h (Val.ref o)).2 "params"
      = Val.ref (h.length + 1) ∧
    (isObject h (lookup ops "filter") = true →
      prop (buildRequestParams c h (Val.ref o)).1 (Val.ref (h.length + 1)) "filter"
        = lookup ops "filter") ∧
    (isObject h (lookup ops "filter") = false →
      hasProp (buildRequestParams c h (Val.ref o)).1 (Val.ref (h.length + 1)) "filter"
        = false) ∧
    ∀ x, x < h.length → (buildRequestParams c h (Val.ref o)).1[x]? = h[x]? := by
  obtain ⟨hparams, hsame, hcell⟩ := buildRequestParams_shaped c hc ho hp
  have ho0 := getElem?_alloc_old (Cell.obj []) ho
  have hlen : (h ++ [Cell.obj []]).length = h.length + 1 := by simp
  have hH := shapeParams_no_filters ho0 (closed_inHeap_alloc hc ho _)
    (closed_inHeap_alloc hc ho _) (by rw [isArray_alloc_obj]; exact hfs)
  rw [isObject_alloc_inHeap _ (inHeap_lookup hc ho _)] at hH
  have hp1 := getElem?_alloc_new (h ++ [Cell.obj []])
    (Cell.obj (if isObject h (lookup ops "filter") = true
      then setKey (basicProps (h ++ [Cell.obj []]) ops) "filter" (lookup ops "filter")
      else basicProps (h ++ [Cell.obj []]) ops))
  rw [hlen, ← hH] at hp1
  obtain ⟨ps', hps', hk⟩ := hcell _ hp1
  refine ⟨hparams, ?_, ?_, ?_⟩
  · intro hf
    rw [prop_obj _ hps', (hk "filter" (by decide)).1, if_pos hf, lookup_setKey_self]
  · intro hf
    rw [hasProp_obj _ hps', (hk "filter" (by decide)).2, hf]
    simp only [Bool.false_eq_true, if_false]
    exact (basicProps_filter _ _).2
  · intro x hx
    have hxc : h[x]? = some h[x] := List.getElem?_eq_getElem hx
    rw [hxc]
    apply hsame x _ (by omega)
    rw [hH, List.getElem?_append_left (by simp; omega), List.getElem?_append_left hx]
    exact hxc

/-! ## One filter input at a time -/

/-- C12, as the code has it: for options without a `params` override and
without an object-shaped `filter`, the compiled map has a `filter` key if and
only if `options.filters` is a sequence, empty or not; the compiled filter is
then a new group `{logic: "and", filters: options.filters}` around the caller's
sequence, which keeps its elements, so `filters: []` gives a group whose
sequence is empty. -/
theorem buildRequestParams_filter_key (c : DaktelaConnector) (h : Heap) (o : Nat)
    (ops : List (String × Val))
    (hc : closed h = true) (ho : h[o]? = some (Cell.obj ops))
    (hp : isObject h (lookup ops "params") = false)
    (hf : isObject h (lookup ops "filter") = false) :
    ∃ p, prop (buildRequestParams c h (Val.ref o)).1 (buildRequestParams c h (Val.ref o)).2
        "params" = Val.ref p ∧
      hasProp (buildRequestParams c h (Val.ref o)).1 (Val.ref p) "filter"
        = isArray h (lookup ops "filters") ∧
      (isArray h (lookup ops "filters") = true →
        ∃ g, prop (buildRequestParams c h (Val.ref o)).1 (Val.ref p) "filter" = Val.ref g ∧
          (buildRequestParams c h (Val.ref o)).1[g]?
            = some (Cell.obj [("logic", Val.str "and"), ("filters", lookup ops "filters")])) ∧
      ∀ x, x < h.length → (buildRequestParams c h (Val.ref o)).1[x]? = h[x]? := by
  by_cases hfs : isArray h (lookup ops "filters") = true
  · obtain ⟨h1, h2, h3, h4, h5⟩ := buildRequestParams_filters_only c hc ho hp hfs hf
    exact ⟨_, h1, by rw [h3, hfs], fun _ => ⟨_, h2, h4⟩, h5⟩
  · have hfs' : isArray h (lookup ops "filters") = false := by simpa using hfs
    obtain ⟨h1, -, h3, h4⟩ := buildRequestParams_no_filters c hc ho hp hfs'
    exact ⟨_, h1, by rw [h3 hf, hfs'], fun hx => absurd hx hfs, h4⟩

/-- Witness for C12: the options `{filters: []}`. -/
theorem buildRequestParams_filter_key_witness :
    closed emptyFiltersHeap = true ∧
    isObject emptyFiltersHeap (lookup [("filters", Val.ref 1)] "filter") = false ∧
    ∃ p, prop (buildRequestParams cookieConnector emptyFiltersHeap (Val.ref 0)).1
        (buildRequestParams cookieConnector emptyFiltersHeap (Val.ref 0)).2 "params"
        = Val.ref p ∧
      hasProp (buildRequestParams cookieConnector emptyFiltersHeap (Val.ref 0)).1 (Val.ref p)
        "filter" = isArray emptyFiltersHeap (lookup [("filters", Val.ref 1)] "filters") ∧
      (isArray emptyFiltersHeap (lookup [("filters", Val.ref 1)] "filters") = true →
        ∃ g, prop (buildRequestParams cookieConnector emptyFiltersHeap (Val.ref 0)).1
            (Val.ref p) "filter" = Val.ref g ∧
          (buildRequestParams cookieConnector emptyFiltersHeap (Val.ref 0)).1[g]?
            = some (Cell.obj [("logic", Val.str "and"),
                ("filters", lookup [("filters", Val.ref 1)] "filters")])) ∧
      ∀ x, x < emptyFiltersHeap.length →
        (buildRequestParams cookieConnector emptyFiltersHeap (Val.ref 0)).1[x]?
          = emptyFiltersHeap[x]? :=
  ⟨by decide, by decide,
   buildRequestParams_filter_key cookieConnector emptyFiltersHeap 0 [("filters", Val.ref 1)]
    (by decide) (by decide) (by decide) (by decide)⟩

/-- C12 as stated fails: `{filters: []}` compiles to a map with a `filter` key,
and the `filters` sequence of that group (address 1) is empty. -/
theorem buildRequestParams_filter_key_counterexample :
    emptyFiltersHeap[1]? = some (Cell.arr []) ∧
    prop emptyFiltersHeap (Val.ref 0) "filters" = Val.ref 1 ∧
    hasProp (buildRequestParams cookieConnector emptyFiltersHeap (Val.ref 0)).1
      (prop (buildRequestParams cookieConnector emptyFiltersHeap (Val.ref 0)).1
        (buildRequestParams cookieConnector emptyFiltersHeap (Val.ref 0)).2 "params")
      "filter" = true ∧
    prop (buildRequestParams cookieConnector emptyFiltersHeap (Val.ref 0)).1
      (prop (buildRequestParams cookieConnector emptyFiltersHeap (Val.ref 0)).1
        (prop (buildRequestParams cookieConnector emptyFiltersHeap (Val.ref 0)).1
          (buildRequestParams cookieConnector emptyFiltersHeap (Val.ref 0)).2 "params")
        "filter") "filters" = Val.ref 1 ∧
    (buildRequestParams cookieConnector emptyFiltersHeap (Val.ref 0)).1[1]?
      = some (Cell.arr []) := by
  decide

/-- C18: without a `params` override, when only `filters` is supplied, a
sequence `[f1, ..., fn]`, the compiled filter is a new group `{logic: "and",
filters: A}` where `A` is that sequence with the same elements in the same
order; when only an object-shaped `filter` `G` is supplied, the compiled filter
is `G` itself, unchanged. -/
theorem buildRequestParams_one_filter_input (c : DaktelaConnector) (h : Heap)
    (o₁ a o₂ g : Nat) (ops₁ ops₂ G : List (String × Val)) (fs : List Val)
    (hc : closed h = true)
    (ho₁ : h[o₁]? = some (Cell.obj ops₁)) (hp₁ : isObject h (lookup ops₁ "params") = false)
    (hfs₁ : lookup ops₁ "filters" = Val.ref a) (ha : h[a]? = some (Cell.arr fs))
    (hf₁ : isObject h (lookup ops₁ "filter") = false)
    (ho₂ : h[o₂]? = some (Cell.obj ops₂)) (hp₂ : isObject h (lookup ops₂ "params") = false)
    (hfs₂ : isArray h (lookup ops₂ "filters") = false)
    (hf₂ : lookup ops₂ "filter" = Val.ref g) (hg : h[g]? = some (Cell.obj G)) :
    (∃ p f, prop (buildRequestParams c h (Val.ref o₁)).1
          (buildRequestParams c h (Val.ref o₁)).2 "params" = Val.ref p ∧
        prop (buildRequestParams c h (Val.ref o₁)).1 (Val.ref p) "filter" = Val.ref f ∧
        (buildRequestParams c h (Val.ref o₁)).1[f]?
          = some (Cell.obj [("logic", Val.str "and"), ("filters", Val.ref a)]) ∧
        (buildRequestParams c h (Val.ref o₁)).1[a]? = some (Cell.arr fs)) ∧
    (∃ p, prop (buildRequestParams c h (Val.ref o₂)).1
          (buildRequestParams c h (Val.ref o₂)).2 "params" = Val.ref p ∧
        prop (buildRequestParams c h (Val.ref o₂)).1 (Val.ref p) "filter" = Val.ref g ∧
        (buildRequestParams c h (Val.ref o₂)).1[g]? = some (Cell.obj G)) := by
  constructor
  · have hfs : isArray h (lookup ops₁ "filters") = true := by rw [hfs₁]; exact isArray_arr ha
    obtain ⟨h1, h2, -, h4, h5⟩ := buildRequestParams_filters_only c hc ho₁ hp₁ hfs hf₁
    rw [hfs₁] at h4
    exact ⟨_, _, h1, h2, h4, (h5 a (List.getElem?_eq_some.mp ha).1).trans ha⟩
  · have hf : isObject h (lookup ops₂ "filter") = true := by rw [hf₂]; exact isObject_obj hg
    obtain ⟨h1, h2, -, h4⟩ := buildRequestParams_no_filters c hc ho₂ hp₂ hfs₂
    exact ⟨_, h1, (h2 hf).trans hf₂, (h4 g (List.getElem?_eq_some.mp hg).1).trans hg⟩

/-- Witness for C18: `{filters: [f]}` and `{filter: G}` of "Build params test". -/
theorem buildRequestParams_one_filter_input_witness :
    closed singleFilterHeap = true ∧
    singleFilterHeap[2]? = some (Cell.arr [Val.ref 3]) ∧
    (∃ p f, prop (buildRequestParams cookieConnector singleFilterHeap (Val.ref 0)).1
          (buildRequestParams cookieConnector singleFilterHeap (Val.ref 0)).2 "params"
          = Val.ref p ∧
        prop (buildRequestParams cookieConnector singleFilterHeap (Val.ref 0)).1 (Val.ref p)
          "filter" = Val.ref f ∧
        (buildRequestParams cookieConnector singleFilterHeap (Val.ref 0)).1[f]?
          = some (Cell.obj [("logic", Val.str "and"), ("filters", Val.ref 2)]) ∧
        (buildRequestParams cookieConnector singleFilterHeap (Val.ref 0)).1[2]?
          = some (Cell.arr [Val.ref 3])) ∧
    (∃ p, prop (buildRequestParams cookieConnector singleFilterHeap (Val.ref 1)).1
          (buildRequestParams cookieConnector singleFilterHeap (Val.ref 1)).2 "params"
          = Val.ref p ∧
        prop (buildRequestParams cookieConnector singleFilterHeap (Val.ref 1)).1 (Val.ref p)
          "filter" = Val.ref 4 ∧
        (buildRequestParams cookieConnector singleFilterHeap (Val.ref 1)).1[4]?
          = some (Cell.obj [("logic", Val.str FilterLogicOr), ("filters", Val.ref 5)])) :=
  ⟨by decide, by decide,
   buildRequestParams_one_filter_input cookieConnector singleFilterHeap 0 2 1 4
    [("filters", Val.ref 2)] [("filter", Val.ref 4)]
    [("logic", Val.str FilterLogicOr), ("filters", Val.ref 5)] [Val.ref 3]
    (by decide) (by decide) (by decide) (by decide) (by decide) (by decide)
    (by decide) (by decide) (by decide) (by decide) (by decide)⟩

/-! ## Fields, sort and pagination -/

/-- Without an override, every key of the returned map other than `filter` and
`accessToken` is as lines 183-192 set it, and no cell of the caller changes
except the array passed as `options.filters`. -/
theorem buildRequestParams_basic_keys {h : Heap} {o : Nat} {ops : List (String × Val)}
    (c : DaktelaConnector) (hc : closed h = true) (ho : h[o]? = some (Cell.obj ops))
    (hp : isObject h (lookup ops "params") = false) :
    prop (buildRequestParams c h (Val.ref o)).1 (buildRequestParams c h (Val.ref o)).2 "params"
      = Val.ref (h.length + 1) ∧
    (∀ k, k ≠ "filter" → k ≠ "accessToken" →
      prop (buildRequestParams c h (Val.ref o)).1 (Val.ref (h.length + 1)) k
        = lookup (basicProps h ops) k ∧
      hasProp (buildRequestParams c h (Val.ref o)).1 (Val.ref (h.length + 1)) k
        = hasKey (basicProps h ops) k) ∧
    (∀ x, x < h.length → lookup ops "filters" ≠ Val.ref x →
      (buildRequestParams c h (Val.ref o)).1[x]? = h[x]?) := by
  obtain ⟨hparams, hsame, hcell⟩ := buildRequestParams_shaped c hc ho hp
  have ho0 := getElem?_alloc_old (Cell.obj []) ho
  have hlen : (h ++ [Cell.obj []]).length = h.length + 1 := by simp
  obtain ⟨ps, hps, hk⟩ := shapeParams_params_cell ho0 (closed_inHeap_alloc hc ho _)
  rw [hlen] at hps
  rw [basicProps_alloc ops (inHeap_lookup hc ho _)] at hk
  obtain ⟨ps', hps', hk'⟩ := hcell ps hps
  refine ⟨hparams, ?_, ?_⟩
  · intro k hk1 hk2
    rw [prop_obj _ hps', hasProp_obj _ hps']
    exact ⟨(hk' k hk2).1.trans (hk k hk1).1, (hk' k hk2).2.trans (hk k hk1).2⟩
  · intro x hx hne
    have hxc : h[x]? = some h[x] := List.getElem?_eq_getElem hx
    rw [hxc]
    apply hsame x _ (by omega)
    rw [shapeParams_frame ho0 (closed_inHeap_alloc hc ho _) (closed_inHeap_alloc hc ho _) x
      (by simp; omega) hne, List.getElem?_append_left hx]
    exact hxc

/-- A cell of the caller is changed by `buildRequestParams` without an override
only when it is the array passed as `options.filters` and `options.filter` is
an object, which is then pushed onto it. -/
theorem buildRequestParams_frame {h : Heap} {o : Nat} {ops : List (String × Val)}
    (c : DaktelaConnector) (hc : closed h = true) (ho : h[o]? = some (Cell.obj ops))
    (hp : isObject h (lookup ops "params") = false) (x : Nat) (hx : x < h.length)
    (hne : ¬ (lookup ops "filters" = Val.ref x ∧ isObject h (lookup ops "filter") = true)) :
    (buildRequestParams c h (Val.ref o)).1[x]? = h[x]? := by
  by_cases hfx : lookup ops "filters" = Val.ref x
  · have hf : isObject h (lookup ops "filter") = false := by
      cases hb : isObject h (lookup ops "filter") with
      | false => rfl
      | true => exact absurd ⟨hfx, hb⟩ hne
    by_cases hfs : isArray h (lookup ops "filters") = true
    · exact (buildRequestParams_filters_only c hc ho hp hfs hf).2.2.2.2 x hx
    · exact (buildRequestParams_no_filters c hc ho hp (by simpa using hfs)).2.2.2 x hx
  · exact (buildRequestParams_basic_keys c hc ho hp).2.2 x hx hfx

/-- For options without a `params` override whose `fields` is a sequence `F`,
`sort` a sequence `S` and `pagination` an object `P`, the compiled map has
`fields` and `sort` equal to those two arrays, `take = P.take` unless that is
null or absent, then 100 (a `take` of 0 stays 0), and `skip = P.skip` unless
that is null or absent, then 0.  The elements of `fields` (of `sort`) are
untouched unless that same array is also passed as `filters` next to an
object-shaped `filter`.  For options whose `pagination` is not object-shaped
the compiled map has neither `take` nor `skip`. -/
theorem shaped_fields_sort_pagination (c : DaktelaConnector) (h : Heap)
    (o f s q o₂ : Nat) (ops P ops₂ : List (String × Val)) (F S : List Val)
    (hc : closed h = true)
    (ho : h[o]? = some (Cell.obj ops)) (hp : isObject h (lookup ops "params") = false)
    (hf : lookup ops "fields" = Val.ref f) (hF : h[f]? = some (Cell.arr F))
    (hs : lookup ops "sort" = Val.ref s) (hS : h[s]? = some (Cell.arr S))
    (hq : lookup ops "pagination" = Val.ref q) (hP : h[q]? = some (Cell.obj P))
    (ho₂ : h[o₂]? = some (Cell.obj ops₂)) (hp₂ : isObject h (lookup ops₂ "params") = false)
    (hq₂ : isObject h (lookup ops₂ "pagination") = false) :
    (∃ p, prop (buildRequestParams c h (Val.ref o)).1 (buildRequestParams c h (Val.ref o)).2
          "params" = Val.ref p ∧
        prop (buildRequestParams c h (Val.ref o)).1 (Val.ref p) "fields" = Val.ref f ∧
        prop (buildRequestParams c h (Val.ref o)).1 (Val.ref p) "sort" = Val.ref s ∧
        (¬ (lookup ops "filters" = Val.ref f ∧ isObject h (lookup ops "filter") = true) →
          (buildRequestParams c h (Val.ref o)).1[f]? = some (Cell.arr F)) ∧
        (¬ (lookup ops "filters" = Val.ref s ∧ isObject h (lookup ops "filter") = true) →
          (buildRequestParams c h (Val.ref o)).1[s]? = some (Cell.arr S)) ∧
        prop (buildRequestParams c h (Val.ref o)).1 (Val.ref p) "take"
          = (if (lookup P "take").isNullish then Val.num 100 else lookup P "take") ∧
        prop (buildRequestParams c h (Val.ref o)).1 (Val.ref p) "skip"
          = (if (lookup P "skip").isNullish then Val.num 0 else lookup P "skip") ∧
        (lookup P "take" = Val.num 0 →
          prop (buildRequestParams c h (Val.ref o)).1 (Val.ref p) "take" = Val.num 0)) ∧
    (∃ p, prop (buildRequestParams c h (Val.ref o₂)).1 (buildRequestParams c h (Val.ref o₂)).2
          "params" = Val.ref p ∧
        hasProp (buildRequestParams c h (Val.ref o₂)).1 (Val.ref p) "take" = false ∧
        hasProp (buildRequestParams c h (Val.ref o₂)).1 (Val.ref p) "skip" = false) := by
  constructor
  · obtain ⟨hparams, hkeys, -⟩ := buildRequestParams_basic_keys c hc ho hp
    have hframe := buildRequestParams_frame c hc ho hp
    have hqo : isObject h (lookup ops "pagination") = true := by rw [hq]; exact isObject_obj hP
    have htake : prop (buildRequestParams c h (Val.ref o)).1 (Val.ref (h.length + 1)) "take"
        = (if (lookup P "take").isNullish then Val.num 100 else lookup P "take") := by
      rw [(hkeys "take" (by decide) (by decide)).1, (basicProps_paged ops hqo).1, hq,
        prop_obj _ hP]
      rfl
    refine ⟨_, hparams, ?_, ?_, ?_, ?_, htake, ?_, ?_⟩
    · rw [(hkeys "fields" (by decide) (by decide)).1, (basicProps_fields h ops).1, hf,
        if_pos (isArray_arr hF)]
    · rw [(hkeys "sort" (by decide) (by decide)).1, (basicProps_sort h ops).1, hs,
        if_pos (isArray_arr hS)]
    · intro hne
      exact (hframe f (List.getElem?_eq_some.mp hF).1 hne).trans hF
    · intro hne
      exact (hframe s (List.getElem?_eq_some.mp hS).1 hne).trans hS
    · rw [(hkeys "skip" (by decide) (by decide)).1, (basicProps_paged ops hqo).2, hq,
        prop_obj _ hP]
      rfl
    · intro h0
      rw [htake, h0]; rfl
  · obtain ⟨hparams, hkeys, -⟩ := buildRequestParams_basic_keys c hc ho₂ hp₂
    exact ⟨_, hparams,
      (hkeys "take" (by decide) (by decide)).2.trans (basicProps_unpaged ops₂ hq₂).1,
      (hkeys "skip" (by decide) (by decide)).2.trans (basicProps_unpaged ops₂ hq₂).2⟩

/-- An instance: fields, one sort and the pagination `{take: 0}`, and the same
fields without pagination. -/
theorem shaped_fields_sort_pagination_witness :
    closed pagedHeap = true ∧
    pagedHeap[5]? = some (Cell.obj [("take", Val.num 0)]) ∧
    (∃ p, prop (buildRequestParams tokenConnector pagedHeap (Val.ref 0)).1
          (buildRequestParams tokenConnector pagedHeap (Val.ref 0)).2 "params" = Val.ref p ∧
        prop (buildRequestParams tokenConnector pagedHeap (Val.ref 0)).1 (Val.ref p) "fields"
          = Val.ref 2 ∧
        prop (buildRequestParams tokenConnector pagedHeap (Val.ref 0)).1 (Val.ref p) "sort"
          = Val.ref 3 ∧
        (¬ (lookup [("fields", Val.ref 2), ("sort", Val.ref 3), ("pagination", Val.ref 5)]
              "filters" = Val.ref 2 ∧
            isObject pagedHeap
              (lookup [("fields", Val.ref 2), ("sort", Val.ref 3), ("pagination", Val.ref 5)]
                "filter") = true) →
          (buildRequestParams tokenConnector pagedHeap (Val.ref 0)).1[2]?
            = some (Cell.arr [Val.str "a", Val.str "b"])) ∧
        (¬ (lookup [("fields", Val.ref 2), ("sort", Val.ref 3), ("pagination", Val.ref 5)]
              "filters" = Val.ref 3 ∧
            isObject pagedHeap
              (lookup [("fields", Val.ref 2), ("sort", Val.ref 3), ("pagination", Val.ref 5)]
                "filter") = true) →
          (buildRequestParams tokenConnector pagedHeap (Val.ref 0)).1[3]?
            = some (Cell.arr [Val.ref 4])) ∧
        prop (buildRequestParams tokenConnector pagedHeap (Val.ref 0)).1 (Val.ref p) "take"
          = (if (lookup [("take", Val.num 0)] "take").isNullish then Val.num 100
             else lookup [("take", Val.num 0)] "take") ∧
        prop (buildRequestParams tokenConnector pagedHeap (Val.ref 0)).1 (Val.ref p) "skip"
          = (if (lookup [("take", Val.num 0)] "skip").isNullish then Val.num 0
             else lookup [("take", Val.num 0)] "skip") ∧
        (lookup [("take", Val.num 0)] "take" = Val.num 0 →
          prop (buildRequestParams tokenConnector pagedHeap (Val.ref 0)).1 (Val.ref p) "take"
            = Val.num 0)) ∧
    (∃ p, prop (buildRequestParams tokenConnector pagedHeap (Val.ref 1)).1
          (buildRequestParams tokenConnector pagedHeap (Val.ref 1)).2 "params" = Val.ref p ∧
        hasProp (buildRequestParams tokenConnector pagedHeap (Val.ref 1)).1 (Val.ref p) "take"
          = false ∧
        hasProp (buildRequestParams tokenConnector pagedHeap (Val.ref 1)).1 (Val.ref p) "skip"
          = false) :=
  ⟨by decide, by decide,
   shaped_fields_sort_pagination tokenConnector pagedHeap 0 2 3 5 1
    [("fields", Val.ref 2), ("sort", Val.ref 3), ("pagination", Val.ref 5)]
    [("take", Val.num 0)] [("fields", Val.ref 2)] [Val.str "a", Val.str "b"] [Val.ref 4]
    (by decide) (by decide) (by decide) (by decide) (by decide) (by decide) (by decide)
    (by decide) (by decide) (by decide) (by decide) (by decide)⟩

/-- C17 fails when the array passed as `fields` is also passed as `filters` next
to a custom filter: the custom filter `G` (address 7) is pushed onto that
array, so the compiled `fields` is `[G]` for the shared empty array and
`['a', 'b', G]` for the shared `['a', 'b']`, not the sequence `F` the caller
passed.  `sort`, `take` and `skip` are as the claim says. -/
theorem buildRequestParams_fields_aliased :
    closed aliasedHeap = true ∧
    prop aliasedHeap (Val.ref 0) "fields" = Val.ref 2 ∧
    aliasedHeap[2]? = some (Cell.arr []) ∧
    prop (buildRequestParams cookieConnector aliasedHeap (Val.ref 0)).1
      (prop (buildRequestParams cookieConnector aliasedHeap (Val.ref 0)).1
        (buildRequestParams cookieConnector aliasedHeap (Val.ref 0)).2 "params")
      "fields" = Val.ref 2 ∧
    (buildRequestParams cookieConnector aliasedHeap (Val.ref 0)).1[2]?
      = some (Cell.arr [Val.ref 7]) ∧
    prop (buildRequestParams cookieConnector aliasedHeap (Val.ref 0)).1
      (prop (buildRequestParams cookieConnector aliasedHeap (Val.ref 0)).1
        (buildRequestParams cookieConnector aliasedHeap (Val.ref 0)).2 "params")
      "sort" = Val.ref 4 ∧
    (buildRequestParams cookieConnector aliasedHeap (Val.ref 0)).1[4]?
      = some (Cell.arr [Val.ref 5]) ∧
    prop (buildRequestParams cookieConnector aliasedHeap (Val.ref 0)).1
      (prop (buildRequestParams cookieConnector aliasedHeap (Val.ref 0)).1
        (buildRequestParams cookieConnector aliasedHeap (Val.ref 0)).2 "params")
      "take" = Val.num 50 ∧
    prop (buildRequestParams cookieConnector aliasedHeap (Val.ref 0)).1
      (prop (buildRequestParams cookieConnector aliasedHeap (Val.ref 0)).1
        (buildRequestParams cookieConnector aliasedHeap (Val.ref 0)).2 "params")
      "skip" = Val.num 0 ∧
    prop aliasedHeap (Val.ref 1) "fields" = Val.ref 3 ∧
    aliasedHeap[3]? = some (Cell.arr [Val.str "a", Val.str "b"]) ∧
    prop (buildRequestParams cookieConnector aliasedHeap (Val.ref 1)).1
      (prop (buildRequestParams cookieConnector aliasedHeap (Val.ref 1)).1
        (buildRequestParams cookieConnector aliasedHeap (Val.ref 1)).2 "params")
      "fields" = Val.ref 3 ∧
    (buildRequestParams cookieConnector aliasedHeap (Val.ref 1)).1[3]?
      = some (Cell.arr [Val.str "a", Val.str "b", Val.ref 7]) := by
  decide

/-! ## Raw parameter maps and the caller's object -/

theorem closed_alloc {h : Heap} {c : Cell} (hc : closed h = true)
    (hv : ∀ v, v ∈ c.vals → v.inHeap h = true) : closed (h ++ [c]) = true := by
  unfold closed
  rw [List.all_eq_true]
  intro c' hmem
  rw [List.all_eq_true]
  intro v hvm
  rcases List.mem_append.mp hmem with hin | hin
  · exact inHeap_alloc _ ((List.all_eq_true.mp ((List.all_eq_true.mp hc) c' hin)) v hvm)
  · have hcc : c' = c := by simpa using hin
    subst hcc
    exact inHeap_alloc _ (hv v hvm)

theorem addAccessToken_obj {h : Heap} {m : Nat} {M : List (String × Val)}
    (c : DaktelaConnector) (hm : h[m]? = some (Cell.obj M)) :
    (addAccessToken c h (Val.ref m))[m]?
      = some (Cell.obj (if c.cookieAuth = false ∧ c.accessToken ≠ Val.null
                        then setKey M "accessToken" c.accessToken else M)) := by
  by_cases hauth : c.cookieAuth = false ∧ c.accessToken ≠ Val.null
  · simp only [addAccessToken, hauth.1, hauth.2, Bool.not_false, Bool.true_and, ne_eq,
      not_false_eq_true, decide_True, if_true, and_self]
    exact getElem?_setProp_self _ _ hm
  · have hoff : (!c.cookieAuth && decide (c.accessToken ≠ Val.null)) = false := by
      rcases hb : c.cookieAuth with _ | _
      · simp [hb] at hauth; simp [hauth]
      · simp
    simp only [addAccessToken, hoff, hauth, if_false, Bool.false_eq_true]
    exact hm

/-- With an object-shaped override the returned map is the caller's object: the
token is written into that object, and no other cell of the caller changes. -/
theorem override_cells {h : Heap} {o m : Nat}
    {ops M : List (String × Val)} (c : DaktelaConnector)
    (ho : h[o]? = some (Cell.obj ops)) (hp : lookup ops "params" = Val.ref m)
    (hm : h[m]? = some (Cell.obj M)) :
    prop (buildRequestParams c h (Val.ref o)).1 (buildRequestParams c h (Val.ref o)).2 "params"
      = Val.ref m ∧
    (buildRequestParams c h (Val.ref o)).1[m]?
      = some (Cell.obj (if c.cookieAuth = false ∧ c.accessToken ≠ Val.null
                        then setKey M "accessToken" c.accessToken else M)) ∧
    ∀ x, x < h.length → x ≠ m → (buildRequestParams c h (Val.ref o)).1[x]? = h[x]? := by
  have hch := chooseParams_override ho hp hm
  have hR : (buildRequestParams c h (Val.ref o)).1
      = addAccessToken c (h ++ [Cell.obj []]) (Val.ref m)
          ++ [Cell.obj [("params", Val.ref m)]] := by
    rw [buildRequestParams_eq, hch]
  refine ⟨?_, ?_, ?_⟩
  · rw [buildRequestParams_params, hch]
  · rw [hR]
    exact getElem?_alloc_old _ (addAccessToken_obj c (getElem?_alloc_old _ hm))
  · intro x hx hxm
    have hxc : h[x]? = some h[x] := List.getElem?_eq_getElem hx
    rw [hR, hxc]
    apply getElem?_alloc_old
    rw [addAccessToken_other _ _ hxm]
    exact getElem?_alloc_old _ hxc

/-- The map compiled from a value that is not an object: a new object with
nothing but the token. -/
theorem enrichWithAccessToken_not_object {h : Heap} (c : DaktelaConnector) (v : Val)
    (hc : closed h = true) (hv : v.inHeap h = true) (hno : isObject h v = false) :
    prop (enrichWithAccessToken c h v).1 (enrichWithAccessToken c h v).2 "params"
      = Val.ref (h.length + 2) ∧
    (enrichWithAccessToken c h v).1[h.length + 2]?
      = some (Cell.obj (if c.cookieAuth = false ∧ c.accessToken ≠ Val.null
                        then [("accessToken", c.accessToken)] else [])) ∧
    ∀ x, x < h.length → (enrichWithAccessToken c h v).1[x]? = h[x]? := by
  have hc1 : closed (h ++ [Cell.obj [("params", v)]]) = true :=
    closed_alloc hc (by intro w hw; simp [Cell.vals] at hw; rw [hw]; exact hv)
  have ho1 : (h ++ [Cell.obj [("params", v)]])[h.length]? = some (Cell.obj [("params", v)]) :=
    getElem?_alloc_new h _
  have hl : lookup [("params", v)] "params" = v := by simp [lookup, List.lookup]
  have hp1 : isObject (h ++ [Cell.obj [("params", v)]]) (lookup [("params", v)] "params")
      = false := by rw [hl, isObject_alloc_inHeap _ hv]; exact hno
  have hlen1 : (h ++ [Cell.obj [("params", v)]]).length = h.length + 1 := by simp
  have hlen2 : (h ++ [Cell.obj [("params", v)]] ++ [Cell.obj []]).length = h.length + 2 := by
    simp
  have hE : enrichWithAccessToken c h v
      = buildRequestParams c (h ++ [Cell.obj [("params", v)]]) (Val.ref h.length) := rfl
  have hch := chooseParams_shaped hc1 ho1 hp1
  have hH : (shapeParams (h ++ [Cell.obj [("params", v)]] ++ [Cell.obj []])
      (Val.ref h.length)).1
      = h ++ [Cell.obj [("params", v)]] ++ [Cell.obj []] ++ [Cell.obj []] := by
    rw [@shapeParams_no_filters _ _ [("params", v)]
      (getElem?_alloc_old _ ho1) (by simp [lookup, List.lookup, Val.inHeap])
      (by simp [lookup, List.lookup, Val.inHeap]) (by simp [lookup, List.lookup, isArray])]
    simp [basicProps, lookup, List.lookup, isArray, isObject]
  have hR : (enrichWithAccessToken c h v).1
      = addAccessToken c (h ++ [Cell.obj [("params", v)]] ++ [Cell.obj []] ++ [Cell.obj []])
          (Val.ref (h.length + 2)) ++ [Cell.obj [("params", Val.ref (h.length + 2))]] := by
    rw [hE, buildRequestParams_eq, hch, shapeParams_snd, hH, hlen2]
  have hnew : (h ++ [Cell.obj [("params", v)]] ++ [Cell.obj []] ++ [Cell.obj []])[h.length + 2]?
      = some (Cell.obj []) := by
    rw [← hlen2]; exact getElem?_alloc_new _ _
  refine ⟨?_, ?_, ?_⟩
  · rw [hE, buildRequestParams_params, hch, shapeParams_snd, hlen2]
  · rw [hR]
    have := getElem?_alloc_old (Cell.obj [("params", Val.ref (h.length + 2))])
      (addAccessToken_obj c hnew)
    rw [this]
    split <;> rfl
  · intro x hx
    have hxc : h[x]? = some h[x] := List.getElem?_eq_getElem hx
    rw [hR, hxc]
    apply getElem?_alloc_old
    rw [addAccessToken_other _ _ (by omega)]
    exact getElem?_alloc_old _ (getElem?_alloc_old _ (getElem?_alloc_old _ hxc))

/-- C15: for post, put and delete the query parameters are
`enrichWithAccessToken(params)`, that is `buildRequestParams({params: params})`.
When `params` is an object-shaped map the compiled map is that object with
exactly its entries, keys named `fields`, `sort`, `pagination`, `filters` or
`filter` included as raw entries; when `params` is null or otherwise not
object-shaped the compiled map is a new empty object; in both cases
`accessToken` is added when `cookieAuth` is false and the token is not null,
and nothing else is ever derived. -/
theorem enrichWithAccessToken_raw (c : DaktelaConnector) (h : Heap) (m : Nat)
    (M : List (String × Val)) (v : Val)
    (hc : closed h = true) (hm : h[m]? = some (Cell.obj M))
    (hv : v.inHeap h = true) (hno : isObject h v = false) :
    (∀ w, enrichWithAccessToken c h w
        = buildRequestParams c (h ++ [Cell.obj [("params", w)]]) (Val.ref h.length)) ∧
    (∀ (api : Transport) (endpoint : String) (payload w : Val),
      c.post api h endpoint payload w
        = ((api (enrichWithAccessToken c h (defaultNull w)).1
              { method := "post", endpoint := endpoint, payload := payload,
                config := (enrichWithAccessToken c h (defaultNull w)).2 }).1,
           settle (api (enrichWithAccessToken c h (defaultNull w)).1
              { method := "post", endpoint := endpoint, payload := payload,
                config := (enrichWithAccessToken c h (defaultNull w)).2 }).1
             (api (enrichWithAccessToken c h (defaultNull w)).1
              { method := "post", endpoint := endpoint, payload := payload,
                config := (enrichWithAccessToken c h (defaultNull w)).2 }).2) ∧
      c.put api h endpoint payload w
        = ((api (enrichWithAccessToken c h (defaultNull w)).1
              { method := "put", endpoint := endpoint, payload := payload,
                config := (enrichWithAccessToken c h (defaultNull w)).2 }).1,
           settle (api (enrichWithAccessToken c h (defaultNull w)).1
              { method := "put", endpoint := endpoint, payload := payload,
                config := (enrichWithAccessToken c h (defaultNull w)).2 }).1
             (api (enrichWithAccessToken c h (defaultNull w)).1
              { method := "put", endpoint := endpoint, payload := payload,
                config := (enrichWithAccessToken c h (defaultNull w)).2 }).2) ∧
      c.delete api h endpoint w
        = ((api (enrichWithAccessToken c h (defaultNull w)).1
              { method := "delete", endpoint := endpoint, payload := Val.undefined,
                config := (enrichWithAccessToken c h (defaultNull w)).2 }).1,
           settle (api (enrichWithAccessToken c h (defaultNull w)).1
              { method := "delete", endpoint := endpoint, payload := Val.undefined,
                config := (enrichWithAccessToken c h (defaultNull w)).2 }).1
             (api (enrichWithAccessToken c h (defaultNull w)).1
              { method := "delete", endpoint := endpoint, payload := Val.undefined,
                config := (enrichWithAccessToken c h (defaultNull w)).2 }).2)) ∧
    (prop (enrichWithAccessToken c h (Val.ref m)).1 (enrichWithAccessToken c h (Val.ref m)).2
        "params" = Val.ref m ∧
      (enrichWithAccessToken c h (Val.ref m)).1[m]?
        = some (Cell.obj (if c.cookieAuth = false ∧ c.accessToken ≠ Val.null
                          then setKey M "accessToken" c.accessToken else M))) ∧
    (∃ p, h.length ≤ p ∧
      prop (enrichWithAccessToken c h v).1 (enrichWithAccessToken c h v).2 "params"
        = Val.ref p ∧
      (enrichWithAccessToken c h v).1[p]?
        = some (Cell.obj (if c.cookieAuth = false ∧ c.accessToken ≠ Val.null
                          then [("accessToken", c.accessToken)] else []))) := by
  refine ⟨fun _ => rfl, fun _ _ _ _ => ⟨rfl, rfl, rfl⟩, ?_, ?_⟩
  · have hcells := @override_cells _ _ _ [("params", Val.ref m)] _ c
      (getElem?_alloc_new h _) (by simp [lookup, List.lookup])
      (getElem?_alloc_old (Cell.obj [("params", Val.ref m)]) hm)
    exact ⟨hcells.1, hcells.2.1⟩
  · obtain ⟨h1, h2, -⟩ := enrichWithAccessToken_not_object c v hc hv hno
    exact ⟨h.length + 2, by omega, h1, h2⟩

/-- Witness for C15: as raw params, the object `{fields, sort, pagination}` of
`pagedHeap`, and `null`. -/
theorem enrichWithAccessToken_raw_witness :
    closed pagedHeap = true ∧ isObject pagedHeap Val.null = false ∧
    prop (enrichWithAccessToken tokenConnector pagedHeap (Val.ref 0)).1
      (enrichWithAccessToken tokenConnector pagedHeap (Val.ref 0)).2 "params" = Val.ref 0 ∧
    (enrichWithAccessToken tokenConnector pagedHeap (Val.ref 0)).1[0]?
      = some (Cell.obj (if tokenConnector.cookieAuth = false ∧
                           tokenConnector.accessToken ≠ Val.null
          then setKey [("fields", Val.ref 2), ("sort", Val.ref 3), ("pagination", Val.ref 5)]
                 "accessToken" tokenConnector.accessToken
          else [("fields", Val.ref 2), ("sort", Val.ref 3), ("pagination", Val.ref 5)])) ∧
    (∃ p, pagedHeap.length ≤ p ∧
      prop (enrichWithAccessToken tokenConnector pagedHeap Val.null).1
        (enrichWithAccessToken tokenConnector pagedHeap Val.null).2 "params" = Val.ref p ∧
      (enrichWithAccessToken tokenConnector pagedHeap Val.null).1[p]?
        = some (Cell.obj (if tokenConnector.cookieAuth = false ∧
                             tokenConnector.accessToken ≠ Val.null
                          then [("accessToken", tokenConnector.accessToken)] else []))) :=
  ⟨by decide, by decide,
   (enrichWithAccessToken_raw tokenConnector pagedHeap 0
      [("fields", Val.ref 2), ("sort", Val.ref 3), ("pagination", Val.ref 5)] Val.null
      (by decide) (by decide) (by decide) (by decide)).2.2.1.1,
   (enrichWithAccessToken_raw tokenConnector pagedHeap 0
      [("fields", Val.ref 2), ("sort", Val.ref 3), ("pagination", Val.ref 5)] Val.null
      (by decide) (by decide) (by decide) (by decide)).2.2.1.2,
   (enrichWithAccessToken_raw tokenConnector pagedHeap 0
      [("fields", Val.ref 2), ("sort", Val.ref 3), ("pagination", Val.ref 5)] Val.null
      (by decide) (by decide) (by decide) (by decide)).2.2.2⟩

/-- C20, as the code has it: when a raw parameter map `M` is passed as
`options.params` to get or as `params` to post, put or delete, every other
cell of the caller is unchanged by the compilation and `M` keeps every entry
other than `accessToken`.  With cookie authentication or a null token `M` is
unchanged; with `cookieAuth` false and a token that is not null the compiled
map is `M` itself and the token is written into it. -/
theorem caller_params_after_call (c : DaktelaConnector) (h : Heap) (o m : Nat)
    (ops M : List (String × Val))
    (ho : h[o]? = some (Cell.obj ops)) (hp : lookup ops "params" = Val.ref m)
    (hm : h[m]? = some (Cell.obj M)) :
    ((buildRequestParams c h (Val.ref o)).1[m]?
        = some (Cell.obj (if c.cookieAuth = false ∧ c.accessToken ≠ Val.null
                          then setKey M "accessToken" c.accessToken else M)) ∧
      (enrichWithAccessToken c h (Val.ref m)).1[m]?
        = some (Cell.obj (if c.cookieAuth = false ∧ c.accessToken ≠ Val.null
                          then setKey M "accessToken" c.accessToken else M))) ∧
    (∀ x, x < h.length → x ≠ m →
      (buildRequestParams c h (Val.ref o)).1[x]? = h[x]? ∧
      (enrichWithAccessToken c h (Val.ref m)).1[x]? = h[x]?) ∧
    (¬ (c.cookieAuth = false ∧ c.accessToken ≠ Val.null) →
      (buildRequestParams c h (Val.ref o)).1[m]? = h[m]? ∧
      (enrichWithAccessToken c h (Val.ref m)).1[m]? = h[m]?) ∧
    (c.cookieAuth = false → c.accessToken ≠ Val.null →
      prop (buildRequestParams c h (Val.ref o)).1 (Val.ref m) "accessToken" = c.accessToken ∧
      prop (enrichWithAccessToken c h (Val.ref m)).1 (Val.ref m) "accessToken"
        = c.accessToken) ∧
    (∀ k, k ≠ "accessToken" →
      prop (buildRequestParams c h (Val.ref o)).1 (Val.ref m) k = lookup M k ∧
      hasProp (buildRequestParams c h (Val.ref o)).1 (Val.ref m) k = hasKey M k ∧
      prop (enrichWithAccessToken c h (Val.ref m)).1 (Val.ref m) k = lookup M k ∧
      hasProp (enrichWithAccessToken c h (Val.ref m)).1 (Val.ref m) k = hasKey M k) := by
  obtain ⟨-, hR, hRo⟩ := override_cells c ho hp hm
  obtain ⟨-, hE, hEo⟩ := @override_cells _ _ _ [("params", Val.ref m)] _ c
    (getElem?_alloc_new h _) (by simp [lookup, List.lookup])
    (getElem?_alloc_old (Cell.obj [("params", Val.ref m)]) hm)
  have hE' : (enrichWithAccessToken c h (Val.ref m)).1[m]?
      = some (Cell.obj (if c.cookieAuth = false ∧ c.accessToken ≠ Val.null
                        then setKey M "accessToken" c.accessToken else M)) := hE
  have hEo' : ∀ x, x < h.length → x ≠ m →
      (enrichWithAccessToken c h (Val.ref m)).1[x]? = h[x]? := by
    intro x hx hxm
    have := hEo x (by simp; omega) hxm
    exact this.trans (List.getElem?_append_left hx)
  refine ⟨⟨hR, hE'⟩, fun x hx hxm => ⟨hRo x hx hxm, hEo' x hx hxm⟩, ?_, ?_, ?_⟩
  · intro hna
    rw [hR, hE', if_neg hna, hm]
    exact ⟨rfl, rfl⟩
  · intro h1 h2
    rw [prop_obj _ hR, prop_obj _ hE', if_pos ⟨h1, h2⟩]
    exact ⟨lookup_setKey_self _ _ _, lookup_setKey_self _ _ _⟩
  · intro k hk
    rw [prop_obj _ hR, hasProp_obj _ hR, prop_obj _ hE', hasProp_obj _ hE']
    split
    · exact ⟨lookup_setKey_ne _ _ hk, hasKey_setKey_ne _ _ hk, lookup_setKey_ne _ _ hk,
        hasKey_setKey_ne _ _ hk⟩
    · exact ⟨rfl, rfl, rfl, rfl⟩

/-- Witness for C20: the override `{xxx: 'yyy'}` of "Build params test" under
cookie authentication, where the caller's object stays as it was. -/
theorem caller_params_after_call_witness :
    overrideHeap[1]? = some (Cell.obj [("xxx", Val.str "yyy")]) ∧
    ¬ (cookieConnector.cookieAuth = false ∧ cookieConnector.accessToken ≠ Val.null) ∧
    (buildRequestParams cookieConnector overrideHeap (Val.ref 0)).1[1]? = overrideHeap[1]? ∧
    (enrichWithAccessToken cookieConnector overrideHeap (Val.ref 1)).1[1]?
      = overrideHeap[1]? :=
  ⟨by decide, by decide,
   (caller_params_after_call cookieConnector overrideHeap 0 1
      [("params", Val.ref 1), ("fields", Val.ref 2), ("sort", Val.ref 3),
       ("pagination", Val.ref 6)]
      [("xxx", Val.str "yyy")] (by decide) (by decide) (by decide)).2.2.1 (by decide)⟩

/-- C20 as stated fails: with `cookieAuth` false and the token `T0`, the caller's
map `{xxx: 'yyy'}` has the entry `accessToken: 'T0'` after `buildRequestParams`
(get) and after `enrichWithAccessToken` (post, put, delete). -/
theorem caller_params_after_call_counterexample :
    overrideHeap[1]? = some (Cell.obj [("xxx", Val.str "yyy")]) ∧
    prop overrideHeap (Val.ref 0) "params" = Val.ref 1 ∧
    (buildRequestParams tokenConnector overrideHeap (Val.ref 0)).1[1]?
      = some (Cell.obj [("xxx", Val.str "yyy"), ("accessToken", Val.str "T0")]) ∧
    (enrichWithAccessToken tokenConnector overrideHeap (Val.ref 1)).1[1]?
      = some (Cell.obj [("xxx", Val.str "yyy"), ("accessToken", Val.str "T0")]) := by
  decide

end Daktela
